import Mathlib

/-!
# ParkPass: the reservation engine of `src/services/booking.js`

A shallow embedding of the Firestore-backed booking service.  Documents are
field/value association lists, a collection is an association list of
documents keyed by document id, and the store holds the two collections
`parking_slots` and `bookings`.  A transaction body reads the store it was
started on and yields its buffered writes; `runTransaction` commits all of
them or none.
-/

namespace ParkPass

/-! ## Data model -/

/-- Field values of a Firestore document. -/
inductive Value where
  | null : Value
  | bool (b : Bool) : Value
  | num (q : ℚ) : Value
  | str (s : String) : Value
  | timestamp (t : Nat) : Value
  | arr (xs : List Value) : Value

/-- Lookup in an association list keyed by strings: the first entry wins. -/
def assocGet {β : Type} (k : String) : List (String × β) → Option β
  | [] => none
  | (k', v) :: rest => if k' = k then some v else assocGet k rest

/-- Write a key: an existing entry is replaced in place, a missing key is
appended at the end. -/
def assocSet {β : Type} (k : String) (v : β) : List (String × β) → List (String × β)
  | [] => [(k, v)]
  | (k', v') :: rest => if k' = k then (k, v) :: rest else (k', v') :: assocSet k v rest

/-- A document: what `snap.data()` returns. -/
abbrev Doc := List (String × Value)

/-- A collection: documents keyed by document id. -/
abbrev Collection := List (String × Doc)

/-- Field access `d.field`; `none` is JavaScript's `undefined`. -/
def Doc.get (d : Doc) (field : String) : Option Value := assocGet field d

/-- Merge of the given fields into a document, as `update` does: named fields
are overwritten or added, every other field is kept. -/
def Doc.update (d : Doc) (fields : Doc) : Doc :=
  fields.foldl (fun acc kv => assocSet kv.1 kv.2 acc) d

/-- The two collections the service touches, and any other collection a
document path can lead into (a subcollection of a slot document). -/
inductive Coll where
  | parking_slots : Coll
  | bookings : Coll
  | other (path : List String) : Coll
  deriving DecidableEq

/-- A document reference `doc(db, coll, id)`. -/
structure DocRef where
  coll : Coll
  id : String

/-- The persisted state: the documents of the two collections.  The store
holds no subcollection. -/
structure Store where
  parking_slots : Collection
  bookings : Collection

/-- The collection a reference points into. -/
def Store.coll (s : Store) : Coll → Collection
  | .parking_slots => s.parking_slots
  | .bookings => s.bookings
  | .other _ => []

/-- Replace one collection of the store; a subcollection is not part of the
store. -/
def Store.setColl (s : Store) (c : Coll) (docs : Collection) : Store :=
  match c with
  | .parking_slots => { s with parking_slots := docs }
  | .bookings => { s with bookings := docs }
  | .other _ => s

/-- Read of a document; `none` when `snap.exists()` is false. -/
def Store.getDoc (s : Store) (r : DocRef) : Option Doc := assocGet r.id (s.coll r.coll)

/-- A buffered write of a transaction, or a single direct write. -/
inductive Write where
  | set (ref : DocRef) (data : Doc) : Write
  | update (ref : DocRef) (fields : Doc) : Write

/-- Apply one write.  `set` creates or overwrites the document; `update`
merges fields into an existing document and fails when there is none. -/
def Store.applyWrite (s : Store) : Write → Option Store
  | .set r data => some (s.setColl r.coll (assocSet r.id data (s.coll r.coll)))
  | .update r fields =>
    match s.getDoc r with
    | none => none
    | some d => some (s.setColl r.coll (assocSet r.id (d.update fields) (s.coll r.coll)))

/-- Apply the writes of a transaction in order; `none` if one of them fails. -/
def Store.commit (s : Store) : List Write → Option Store
  | [] => some s
  | w :: ws => (s.applyWrite w).bind (fun s' => s'.commit ws)

/-- The error code of a write to a document that does not exist. -/
def notFound : String := "not-found"

/-- A transaction: the body reads the store it is started on and returns its
result with the writes it buffered.  A body that throws aborts and leaves the
store as it was; otherwise all writes are committed together. -/
def runTransaction {α : Type} (s : Store)
    (body : Store → Except String (α × List Write)) : Except String α × Store :=
  match body s with
  | .error e => (.error e, s)
  | .ok (a, ws) =>
    match s.commit ws with
    | none => (.error notFound, s)
    | some s' => (.ok a, s')

/-! ## The booking service -/

/-- The signed-in user, `auth.currentUser` when it is not null. -/
structure User where
  uid : String
  email : Option String

/-- The argument object of `createBookingAtomic`. -/
structure BookingArgs where
  slotId : String
  slotName : Value
  startTimeISO : Value
  endTimeISO : Value
  amount : Value

/-- The value `user.email || null`: a missing or empty email gives null. -/
def userEmailOrNull (user : User) : Value :=
  match user.email with
  | none => .null
  | some e => if e = "" then .null else .str e

/-- The test `v === s` for a string literal `s`. -/
def strictEqStr (v : Option Value) (s : String) : Bool :=
  match v with
  | some (.str t) => decide (t = s)
  | _ => false

/-- The reference of the document `id` of `parking_slots`. -/
def slotRef (id : String) : DocRef := ⟨.parking_slots, id⟩

/-- The pieces of a character sequence between its slashes. -/
def splitSlash : List Char → List (List Char)
  | [] => [[]]
  | c :: cs =>
    if c = '/' then [] :: splitSlash cs
    else
      match splitSlash cs with
      | [] => [[c]]
      | seg :: segs => (c :: seg) :: segs

/-- Whether two slashes follow each other: `path.indexOf('//') >= 0`. -/
def hasDoubleSlash : List Char → Bool
  | a :: b :: rest => (a == '/' && b == '/') || hasDoubleSlash (b :: rest)
  | _ => false

/-- The segments of a path argument: `path.split('/')` without the empty
pieces. -/
def pathSegments (p : String) : List String :=
  ((splitSlash p.toList).filter (fun seg => !seg.isEmpty)).map String.mk

/-- The message of the error thrown for a path argument with `//` in it. -/
def invalidSegment (p : String) : String :=
  "Invalid segment (" ++ (p ++ "). Paths must not contain // in them.")

/-- The message of the error thrown for a path with an odd number of
segments, which is the path of a collection and not of a document. -/
def invalidDocumentReference (segs : List String) : String :=
  "Invalid document reference. Document references must have an even number of segments, but "
    ++ ("/".intercalate segs ++ (" has " ++ (toString segs.length ++ ".")))

/-- The reference `doc(db, "parking_slots", slotId)`.  The client reads
`slotId` as a path: it refuses `//`, drops empty segments, and needs an even
number of segments in all.  One segment names a document of `parking_slots`;
three or more name a document of a subcollection. -/
def slotDoc (slotId : String) : Except String DocRef :=
  if hasDoubleSlash slotId.toList then .error (invalidSegment slotId)
  else
    match pathSegments slotId with
    | [id] => .ok (slotRef id)
    | segs =>
      if (segs.length + 1) % 2 = 0 then
        .ok ⟨.other ("parking_slots" :: segs.dropLast), segs.getLastD ""⟩
      else .error (invalidDocumentReference ("parking_slots" :: segs))

/-- The reference of a booking document. -/
def bookingDocRef (id : String) : DocRef := ⟨.bookings, id⟩

/-- The booking document written by `createBookingAtomic`; `now` is the
server time that `serverTimestamp()` resolves to. -/
def bookingData (user : User) (now : Nat) (a : BookingArgs) : Doc :=
  [ ("userId", .str user.uid),
    ("userEmail", userEmailOrNull user),
    ("slotId", .str a.slotId),
    ("slotName", a.slotName),
    ("startTime", a.startTimeISO),
    ("endTime", a.endTimeISO),
    ("amount", a.amount),
    ("paymentStatus", .str "pending"),
    ("paystackRef", .null),
    ("createdAt", .timestamp now),
    ("reservedUntil", a.endTimeISO) ]

/-- The fields `createBookingAtomic` writes to the slot. -/
def reservedFields (bookingId : String) (a : BookingArgs) : Doc :=
  [ ("status", .str "reserved"),
    ("currentBookingId", .str bookingId),
    ("reservedUntil", a.endTimeISO) ]

/-- The condition under which `createBookingAtomic` throws
"Slot not available": `slot.status === "booked" || slot.status === "reserved"`. -/
def slotTaken (slot : Doc) : Bool :=
  strictEqStr (slot.get "status") "booked" || strictEqStr (slot.get "status") "reserved"

/-- The body of the transaction in `createBookingAtomic`; `ref` is the slot
reference and `autoId` the identifier of `doc(bookingsRef)`. -/
def createBookingTx (user : User) (autoId : String) (now : Nat) (a : BookingArgs)
    (ref : DocRef) (s : Store) : Except String (String × List Write) :=
  match s.getDoc ref with
  | none => .error "Slot not found"
  | some slot =>
    if slotTaken slot then
      .error "Slot not available"
    else
      .ok (autoId,
        [ .set (bookingDocRef autoId) (bookingData user now a),
          .update ref (reservedFields autoId a) ])

/-- The function `createBookingAtomic`: the outcome (the booking id or the
message of the thrown error) and the store after the call. -/
def createBookingAtomic (currentUser : Option User) (autoId : String) (now : Nat)
    (a : BookingArgs) (s : Store) : Except String String × Store :=
  match currentUser with
  | none => (.error "Not authenticated", s)
  | some user =>
    match slotDoc a.slotId with
    | .error e => (.error e, s)
    | .ok ref => runTransaction s (createBookingTx user autoId now a ref)

/-- The fields `releaseSlot` writes. -/
def releasedFields : Doc :=
  [ ("status", .str "available"),
    ("currentBookingId", .null),
    ("reservedUntil", .null) ]

/-- The function `releaseSlot`: one `updateDoc` on the slot document. -/
def releaseSlot (slotId : String) (s : Store) : Except String Unit × Store :=
  match slotDoc slotId with
  | .error e => (.error e, s)
  | .ok ref =>
    match s.applyWrite (.update ref releasedFields) with
    | none => (.error notFound, s)
    | some s' => (.ok (), s')

/-- Whether a booking document with this identifier exists. -/
def Store.hasBooking (s : Store) (id : String) : Bool := (assocGet id s.bookings).isSome

/-- The store a successful reservation of the slot document `id` commits. -/
def reservedStore (user : User) (autoId : String) (now : Nat) (a : BookingArgs)
    (id : String) (slot : Doc) (s : Store) : Store :=
  { parking_slots := assocSet id (slot.update (reservedFields autoId a)) s.parking_slots,
    bookings := assocSet autoId (bookingData user now a) s.bookings }

/-- The store a successful release of the slot document `id` leaves. -/
def releasedStore (id : String) (slot : Doc) (s : Store) : Store :=
  { s with parking_slots := assocSet id (slot.update releasedFields) s.parking_slots }

/-! ## The slot invariant and runs of the engine -/

/-- A field that is not set: missing from the document or null. -/
def isUnset (v : Option Value) : Bool :=
  match v with
  | none => true
  | some .null => true
  | _ => false

/-- Whether a field value is the identifier of a booking that exists. -/
def Store.namesBooking (s : Store) (v : Option Value) : Bool :=
  match v with
  | some (.str b) => s.hasBooking b
  | _ => false

/-- The slot invariant of the data model, for one slot document: the status is
`reserved` or `booked` exactly when `currentBookingId` names an existing
booking, and an `available` slot has no `currentBookingId`. -/
def slotInvariant (s : Store) (slot : Doc) : Bool :=
  (slotTaken slot == s.namesBooking (slot.get "currentBookingId")) &&
  (!strictEqStr (slot.get "status") "available" || isUnset (slot.get "currentBookingId"))

/-- The slot invariant for every slot document of the store. -/
def Store.invariant (s : Store) : Bool :=
  s.parking_slots.all (fun e => slotInvariant s e.2)

/-- Whether some slot document has this identifier as `currentBookingId`. -/
def Store.refersTo (s : Store) (id : String) : Bool :=
  s.parking_slots.any (fun e => strictEqStr (e.2.get "currentBookingId") id)

/-- Modelled from the spec: the generator behind `doc(bookingsRef)` is part of
the Firestore client and not of this repository; the spec describes what it
returns as an "opaque unique identifier assigned by the Store at creation".
`s.mayAssign id` says that `id` is not in use in `s`: no booking is stored
under it and no slot refers to it. -/
def Store.mayAssign (s : Store) (id : String) : Bool :=
  !s.hasBooking id && !s.refersTo id

/-- The identifiers in use in a store: those of its bookings and those its
slots refer to. -/
def Store.usedIds (s : Store) : List String :=
  s.bookings.map Prod.fst ++
    s.parking_slots.filterMap (fun e =>
      match e.2.get "currentBookingId" with
      | some (.str b) => some b
      | _ => none)

/-- Modelled from the spec: the generator behind `doc(bookingsRef)` is part of
the Firestore client and not of this repository; the spec gives a Booking an
"opaque unique identifier assigned by the Store at creation".  The identifier
assigned in a store is one that is not in use there; which one is immaterial,
and here it is a run of the letter `a` longer than every identifier in use. -/
def Store.assignId (s : Store) : String :=
  String.mk (List.replicate ((s.usedIds.map String.length).foldr max 0 + 1) 'a')

/-- A call of one of the two engine operations, with everything the
environment supplies to it. -/
inductive Op where
  | reserve (currentUser : Option User) (autoId : String) (now : Nat) (a : BookingArgs) : Op
  | release (slotId : String) : Op

/-- The store after one call, whether it succeeded or failed. -/
def Op.run (op : Op) (s : Store) : Store :=
  match op with
  | .reserve currentUser autoId now a => (createBookingAtomic currentUser autoId now a s).2
  | .release slotId => (releaseSlot slotId s).2

/-- The store after a sequence of calls. -/
def runOps : List Op → Store → Store
  | [], s => s
  | op :: ops, s => runOps ops (op.run s)

/-- Whether the identifier handed to a reserve call is one the store may
assign at that moment. -/
def Op.idAssignable (op : Op) (s : Store) : Bool :=
  match op with
  | .reserve _ autoId _ _ => s.mayAssign autoId
  | .release _ => true

/-- Whether every reserve call of a run is handed an assignable identifier. -/
def idsAssignable : List Op → Store → Bool
  | [], _ => true
  | op :: ops, s => op.idAssignable s && idsAssignable ops (op.run s)

/-! ## The booking window -/

/-- Lexicographic order of character sequences by character code. -/
def charsBefore : List Char → List Char → Bool
  | [], [] => false
  | [], _ :: _ => true
  | _ :: _, [] => false
  | a :: as, b :: bs =>
    if a.toNat < b.toNat then true
    else if a.toNat = b.toNat then charsBefore as bs
    else false

/-- Whether the first stored time is strictly after the second.  Times are
stored as ISO strings of fixed format, for which the order of strings is the
order of instants; server timestamps compare by their value. -/
def isAfter (later earlier : Value) : Bool :=
  match later, earlier with
  | .str a, .str b => charsBefore b.toList a.toList
  | .timestamp a, .timestamp b => decide (b < a)
  | _, _ => false

/-- The booking invariant of the data model: `endTime > startTime`. -/
def windowValid (booking : Doc) : Bool :=
  match booking.get "endTime", booking.get "startTime" with
  | some e, some b => isAfter e b
  | _, _ => false

/-- The booking invariant for every booking of the store. -/
def Store.windowsValid (s : Store) : Bool :=
  s.bookings.all (fun e => windowValid e.2)

/-- Whether the arguments of a call respect `endTime > startTime`; a release
has no window. -/
def Op.windowGiven (op : Op) : Bool :=
  match op with
  | .reserve _ _ _ a => isAfter a.endTimeISO a.startTimeISO
  | .release _ => true

/-! ## Live view projections -/

/-- The object `{ id: d.id, ...d.data() }` built for a snapshot document: the
document id under `id`, then every data field spread over it (a data field
named `id` replaces the document id). -/
def docEntry (d : String × Doc) : Doc := Doc.update [("id", .str d.1)] d.2

/-- The listener of `watchSlots`: the callback receives the mapped list of all
documents of the snapshot. -/
def watchSlots {α : Type} (callback : List Doc → α) (snap : Collection) : α :=
  callback (snap.map docEntry)

/-- The creation time of a booking, when `createdAt` is a timestamp. -/
def createdAtOf (d : Doc) : Option Nat :=
  match d.get "createdAt" with
  | some (.timestamp t) => some t
  | _ => none

/-- Modelled from the spec: the evaluation of
`query(collection(db, "bookings"), where("userId", "==", userId),
orderBy("createdAt", "desc"))` is done by the store, outside this repository;
the spec describes it as "filtered server-side to bookings owned by `userId`,
ordered by creation time descending (most recent first)".  Documents are
filtered on the `userId` field and sorted, most recent first, on the
`createdAt` timestamp (a document without one counts as time 0). -/
def userBookingsQuery (userId : String) (bookings : Collection) : Collection :=
  (bookings.filter (fun e => strictEqStr (e.2.get "userId") userId)).insertionSort
    (fun a b => (createdAtOf b.2).getD 0 ≤ (createdAtOf a.2).getD 0)

/-- The listener of `watchUserBookings`: the callback receives the mapped
documents of the query snapshot. -/
def watchUserBookings {α : Type} (userId : String) (callback : List Doc → α)
    (bookings : Collection) : α :=
  callback ((userBookingsQuery userId bookings).map docEntry)

/-! ## The booking page -/

/-- The value of a `datetime-local` input together with what `new Date(text)`
makes of it: milliseconds since the epoch, or `none` for an invalid date. -/
structure TimeInput where
  text : String
  date : Option Int

/-- JavaScript truthiness of a field value. -/
def jsTruthy : Value → Bool
  | .null => false
  | .bool b => b
  | .num q => decide (q ≠ 0)
  | .str s => decide (s ≠ "")
  | .timestamp _ => true
  | .arr _ => true

/-- The expression `a || b` on possibly undefined values. -/
def jsOr (a b : Option Value) : Option Value :=
  match a with
  | some v => if jsTruthy v then some v else b
  | none => b

/-- The effect of `BookingPage` that computes the amount, as a function from
the inputs and the previous amount to the new amount; `none` is `NaN`.
`toNumber` is JavaScript's `Number`.  Dates are whole milliseconds and the
arithmetic is exact: the rounding of the product of two doubles is not
modelled. -/
def amountEffect (toNumber : Value → Option ℚ) (start end_ : TimeInput)
    (slot : Option Doc) (amount : Option ℚ) : Option ℚ :=
  if start.text = "" ∨ end_.text = "" then amount
  else
    match start.date, end_.date with
    | some s, some e =>
      if e ≤ s then some 0
      else
        let hours : ℤ := ⌈((e - s : ℤ) : ℚ) / (1000 * 60 * 60)⌉
        let rate : Option ℚ :=
          match slot.bind (fun d => d.get "price_per_hour") with
          | some v => if jsTruthy v then toNumber v else some 1
          | none => some 1
        rate.map (fun r => (hours : ℚ) * r)
    | _, _ => some 0

/-- The number written by a sequence of decimal digits, after `acc`. -/
def parseDigits : List Char → Nat → Option Nat
  | [], acc => some acc
  | c :: cs, acc =>
    if c.isDigit then parseDigits cs (10 * acc + (c.toNat - 48)) else none

/-- The characters before the first dot, and those after it when there is
one. -/
def splitAtDot : List Char → List Char × Option (List Char)
  | [] => ([], none)
  | c :: cs =>
    if c = '.' then ([], some cs)
    else ((splitAtDot cs).1.cons c, (splitAtDot cs).2)

/-- JavaScript's `Number` on a string, for the empty string and for unsigned
decimal literals (`10`, `10.5`, `.5`, `10.`); any other text is taken as
`NaN`. -/
def stringToNumber (s : String) : Option ℚ :=
  match splitAtDot s.toList with
  | ([], none) => some 0
  | (whole, none) => (parseDigits whole 0).map (fun n => (n : ℚ))
  | (whole, some frac) =>
    if whole.isEmpty && frac.isEmpty then none
    else
      match parseDigits whole 0, parseDigits frac 0 with
      | some a, some b => some ((a : ℚ) + (b : ℚ) / 10 ^ frac.length)
      | _, _ => none

/-- JavaScript's `Number` on null, booleans, numbers and the strings that
`stringToNumber` reads; arrays, timestamps and other strings, whose
conversion goes through further rules, are taken as `NaN`. -/
def numberOfNum : Value → Option ℚ
  | .null => some 0
  | .bool b => some (if b then 1 else 0)
  | .num q => some q
  | .str s => stringToNumber s
  | .timestamp _ => none
  | .arr _ => none

/-- The argument object of `createPaystackCharge`. -/
structure ChargeRequest where
  bookingId : String
  amount : Value
  email : String

/-- The fields of a charge response that `handleBook` reads:
`data?.qr_code_url`, `access_url` and `authorization_url`. -/
structure PayRes where
  qr_code_url : Option Value
  access_url : Option Value
  authorization_url : Option Value

/-- What `handleBook` reads from the page state. -/
structure Page where
  slot : Option Doc
  start : TimeInput
  end_ : TimeInput
  amount : Value

/-- What `handleBook` takes from its surroundings: the signed-in user, the
identifier and server time of the store, `Date.prototype.toISOString`, the
payment client (a rejection carries its message; a resolved value may be
null), and the messages of the run-time's type errors: the one thrown by
`doc` for a `slot.id` that is not a string, and the one thrown when the charge
response is null. -/
structure Env where
  currentUser : Option User
  autoId : String
  now : Nat
  toISOString : Int → String
  createPaystackCharge : ChargeRequest → Except String (Option PayRes)
  typeErrorMessage : Option Value → String
  nullResponseMessage : String

/-- A call of `createBookingAtomic` made by `handleBook`: the `slot.id` and
the amount passed, and what the call returned or threw. -/
structure ReserveCall where
  slotId : Option Value
  amount : Value
  result : Except String String

/-- What a run of `handleBook` did. -/
structure BookOutcome where
  store : Store
  reserveCall : Option ReserveCall
  charges : List ChargeRequest
  error : Option String
  bookingId : Option String
  qr : Option (Option Value)
  navigatedTo : Option String
  uncaught : Bool

/-- The page error for a caught error: `err.message || "Failed to create booking"`. -/
def messageOr (msg : String) : String :=
  if msg = "" then "Failed to create booking" else msg

/-- The payer email `user?.email || "unknown@example.com"`. -/
def payerEmail (currentUser : Option User) : String :=
  match currentUser with
  | some user =>
    match user.email with
    | some e => if e = "" then "unknown@example.com" else e
    | none => "unknown@example.com"
  | none => "unknown@example.com"

/-- The outcome of a run that has done nothing yet. -/
def idle (s : Store) : BookOutcome := ⟨s, none, [], none, none, none, none, false⟩

/-- The argument object `handleBook` passes to `createBookingAtomic`. -/
def bookingArgsOf (env : Env) (page : Page) (slot : Doc) (slotId : String)
    (sd ed : Int) : BookingArgs :=
  ⟨slotId, (jsOr (slot.get "name") (jsOr (slot.get "number") (slot.get "id"))).getD .null,
    .str (env.toISOString sd), .str (env.toISOString ed), page.amount⟩

/-- The part of `handleBook` after `createBookingAtomic` has returned `bId`
and left the store `s'`: the charge request and what follows it. -/
def chargeStep (env : Env) (page : Page) (slot : Doc) (bId : String) (s' : Store) :
    BookOutcome :=
  let req : ChargeRequest := ⟨bId, page.amount, payerEmail env.currentUser⟩
  let booked : BookOutcome :=
    { idle s' with reserveCall := some ⟨slot.get "id", page.amount, .ok bId⟩,
                   charges := [req],
                   bookingId := some bId }
  match env.createPaystackCharge req with
  | .error msg => { booked with error := some (messageOr msg) }
  | .ok none => { booked with error := some (messageOr env.nullResponseMessage) }
  | .ok (some payRes) =>
    let qr := jsOr payRes.qr_code_url (jsOr payRes.access_url payRes.authorization_url)
    { booked with qr := some qr, navigatedTo := some ("/booking-success/" ++ bId) }

/-- The `try` block of `handleBook` with its `catch`. -/
def bookStep (env : Env) (page : Page) (slot : Doc) (sd ed : Int) (s : Store) :
    BookOutcome :=
  match slot.get "id" with
  | some (.str slotId) =>
    match createBookingAtomic env.currentUser env.autoId env.now
        (bookingArgsOf env page slot slotId sd ed) s with
    | (.error msg, s') =>
      { idle s' with reserveCall := some ⟨slot.get "id", page.amount, .error msg⟩,
                     error := some (messageOr msg) }
    | (.ok bId, s') => chargeStep env page slot bId s'
  | other =>
    let msg := match env.currentUser with
      | none => "Not authenticated"
      | some _ => env.typeErrorMessage other
    { idle s with reserveCall := some ⟨other, page.amount, .error msg⟩,
                  error := some (messageOr msg) }

/-- The handler `handleBook` of `BookingPage`, run on a store. -/
def handleBook (env : Env) (page : Page) (s : Store) : BookOutcome :=
  match page.slot with
  | none => { idle s with error := some "No slot selected" }
  | some slot =>
    if page.start.text = "" ∨ page.end_.text = "" then
      { idle s with error := some "Select start and end time" }
    else
      match page.start.date, page.end_.date with
      | some sd, some ed => bookStep env page slot sd ed s
      | _, _ => { idle s with uncaught := true }

/-- Whether the book button is enabled, `loading` aside: the test
`amount <= 0` is false, which it is for a positive amount and for `NaN`. -/
def buttonEnabled (amount : Option ℚ) : Bool :=
  match amount with
  | none => true
  | some q => decide (0 < q)

/-- The slot a call names. -/
def Op.slotId (op : Op) : String :=
  match op with
  | .reserve _ _ _ a => a.slotId
  | .release slotId => slotId

/-! ## Sample data -/

/-- A signed-in user. -/
def alice : User := ⟨"uid-alice", some "alice@example.com"⟩

/-- Another signed-in user, without an email. -/
def bob : User := ⟨"uid-bob", none⟩

/-- A slot document as the seeding code creates it. -/
def seededSlot : Doc :=
  [ ("name", .str "Ruiru Town Parking"),
    ("location", .str "Ruiru, Kenya"),
    ("status", .str "available"),
    ("price", .num 10) ]

/-- A store with one available slot `S1` and no booking. -/
def store0 : Store := ⟨[("S1", seededSlot)], []⟩

/-- The request `reserve(S1, 09:00, 11:00, 20)`. -/
def args0 : BookingArgs :=
  ⟨"S1", .str "Ruiru Town Parking", .str "2025-01-01T09:00:00.000Z",
    .str "2025-01-01T11:00:00.000Z", .num 20⟩

/-- The store after `alice` reserves `S1` in `store0` with booking id `b1`. -/
def store1 : Store :=
  ⟨[("S1", [ ("name", .str "Ruiru Town Parking"),
             ("location", .str "Ruiru, Kenya"),
             ("status", .str "reserved"),
             ("price", .num 10),
             ("currentBookingId", .str "b1"),
             ("reservedUntil", .str "2025-01-01T11:00:00.000Z") ])],
   [("b1", bookingData alice 1000 args0)]⟩

/-- A store in which `S1` is booked and held by a booking of `alice`. -/
def storeBooked : Store :=
  ⟨[("S1", [ ("name", .str "Ruiru Town Parking"),
             ("status", .str "booked"),
             ("currentBookingId", .str "b1") ])],
   [("b1", bookingData alice 1000 args0)]⟩

/-- A request for `S1` whose window ends before it starts. -/
def argsBackwards : BookingArgs :=
  ⟨"S1", .str "Ruiru Town Parking", .str "2025-01-01T11:00:00.000Z",
    .str "2025-01-01T09:00:00.000Z", .num 20⟩

/-- A store whose only slot is under maintenance. -/
def storeMaintenance : Store :=
  ⟨[("S1", [ ("name", .str "Ruiru Town Parking"), ("status", .str "maintenance") ])], []⟩

/-- The input `2025-01-01T09:00`, read as UTC. -/
def nineOClock : TimeInput := ⟨"2025-01-01T09:00", some 1735722000000⟩

/-- The input `2025-01-01T10:30`, read as UTC. -/
def halfPastTen : TimeInput := ⟨"2025-01-01T10:30", some 1735727400000⟩

/-- The slot the booking page holds for the seeded slot `S1`: the document of
`store0` with its id. -/
def seededPageSlot : Doc := docEntry ("S1", seededSlot)

/-- A snapshot with one slot document whose data has a field named `id`. -/
def snapWithIdField : Collection :=
  [("S1", [ ("id", .str "slot-7"), ("status", .str "available") ])]

/-- Bookings of two users, written at times 1000, 3000 and 2000. -/
def bookingsSample : Collection :=
  [ ("b1", bookingData alice 1000 args0),
    ("b2", bookingData bob 3000 args0),
    ("b3", bookingData alice 2000 args0) ]

/-- A payment client whose request is rejected. -/
def failingCharge : ChargeRequest → Except String (Option PayRes) :=
  fun _ => .error "Paystack charge failed"

/-- An environment with `alice` signed in and the failing payment client. -/
def envFailing : Env :=
  ⟨some alice, "b1", 1000,
    fun t => if t = 1735722000000 then "2025-01-01T09:00:00.000Z"
      else "2025-01-01T10:30:00.000Z",
    failingCharge,
    fun _ => "Cannot read properties of undefined (reading 'indexOf')",
    "Cannot read properties of null (reading 'data')"⟩

/-- The page ready to book the seeded slot from 09:00 to 10:30 for 2. -/
def pageReady : Page := ⟨some seededPageSlot, nineOClock, halfPastTen, .num 2⟩

/-- A cleared `datetime-local` input: the empty text, an invalid date. -/
def emptyInput : TimeInput := ⟨"", none⟩

/-- The input `2025-01-01T08:00`, read as UTC. -/
def eightOClock : TimeInput := ⟨"2025-01-01T08:00", some 1735718400000⟩

/-- The store after the page has reserved the seeded slot for `alice`. -/
def store1Page : Store :=
  (createBookingAtomic (some alice) "b1" 1000
    (bookingArgsOf envFailing pageReady seededPageSlot "S1" 1735722000000 1735727400000)
    store0).2

/-! ## Association lists -/

theorem assocGet_assocSet_self {β : Type} (k : String) (v : β) (l : List (String × β)) :
    assocGet k (assocSet k v l) = some v := by
  induction l with
  | nil => simp [assocSet, assocGet]
  | cons e rest ih =>
    obtain ⟨k', v'⟩ := e
    by_cases hk : k' = k
    · simp [assocSet, assocGet, hk]
    · simp [assocSet, assocGet, hk, ih]

theorem assocGet_assocSet_ne {β : Type} (k k' : String) (v : β) (l : List (String × β))
    (hne : k' ≠ k) : assocGet k' (assocSet k v l) = assocGet k' l := by
  induction l with
  | nil => simp [assocSet, assocGet, Ne.symm hne]
  | cons e rest ih =>
    obtain ⟨k1, v1⟩ := e
    by_cases hk : k1 = k
    · subst hk
      simp [assocSet, assocGet, Ne.symm hne]
    · by_cases hk1 : k1 = k'
      · subst hk1
        simp [assocSet, assocGet, hk]
      · simp [assocSet, assocGet, hk, hk1, ih]

theorem assocSet_of_assocGet_none {β : Type} (k : String) (v : β) (l : List (String × β))
    (h : assocGet k l = none) : assocSet k v l = l ++ [(k, v)] := by
  induction l with
  | nil => rfl
  | cons e rest ih =>
    obtain ⟨k1, v1⟩ := e
    by_cases hk : k1 = k
    · simp [assocGet, hk] at h
    · simp [assocGet, hk] at h
      simp [assocSet, hk, ih h]

theorem mem_assocSet {β : Type} (k : String) (v : β) (l : List (String × β))
    (e : String × β) (he : e ∈ assocSet k v l) : e = (k, v) ∨ e ∈ l := by
  induction l with
  | nil => simpa [assocSet] using he
  | cons e1 rest ih =>
    obtain ⟨k1, v1⟩ := e1
    by_cases hk : k1 = k
    · simp [assocSet, hk] at he
      rcases he with he | he
      · exact Or.inl he
      · exact Or.inr (List.mem_cons_of_mem _ he)
    · simp [assocSet, hk] at he
      rcases he with he | he
      · exact Or.inr (by simp [he])
      · rcases ih he with h | h
        · exact Or.inl h
        · exact Or.inr (List.mem_cons_of_mem _ h)

/-! ## The fields written to a slot -/

theorem assocGet_eq_none_of_not_mem_keys {β : Type} (k : String) (l : List (String × β))
    (h : k ∉ l.map Prod.fst) : assocGet k l = none := by
  induction l with
  | nil => rfl
  | cons e rest ih =>
    obtain ⟨k1, v1⟩ := e
    simp only [List.map_cons, List.mem_cons, not_or] at h
    simp [assocGet, Ne.symm h.1, ih h.2]

theorem get_status_update_reserved (d : Doc) (id : String) (a : BookingArgs) :
    (d.update (reservedFields id a)).get "status" = some (.str "reserved") := by
  simp [Doc.update, Doc.get, reservedFields, assocGet_assocSet_self, assocGet_assocSet_ne]

theorem get_currentBookingId_update_reserved (d : Doc) (id : String) (a : BookingArgs) :
    (d.update (reservedFields id a)).get "currentBookingId" = some (.str id) := by
  simp [Doc.update, Doc.get, reservedFields, assocGet_assocSet_self, assocGet_assocSet_ne]

theorem get_reservedUntil_update_reserved (d : Doc) (id : String) (a : BookingArgs) :
    (d.update (reservedFields id a)).get "reservedUntil" = some a.endTimeISO := by
  simp [Doc.update, Doc.get, reservedFields, assocGet_assocSet_self, assocGet_assocSet_ne]

/-! ## What one call of `createBookingAtomic` does -/

/-- What a path argument can resolve to: an error, a document of
`parking_slots`, or a document of a subcollection. -/
theorem slotDoc_cases (p : String) :
    (∃ e, slotDoc p = .error e) ∨ (∃ id, slotDoc p = .ok (slotRef id)) ∨
    (∃ path id, slotDoc p = .ok ⟨.other path, id⟩) := by
  unfold slotDoc
  split
  · exact Or.inl ⟨_, rfl⟩
  · split
    · exact Or.inr (Or.inl ⟨_, rfl⟩)
    · split
      · exact Or.inr (Or.inr ⟨_, _, rfl⟩)
      · exact Or.inl ⟨_, rfl⟩

theorem ne_of_first_char (a b : String) (c d : Char) (ra rb : List Char)
    (ha : a.data = c :: ra) (hb : b.data = d :: rb) (hcd : c ≠ d) : a ≠ b := by
  intro h
  rw [h, hb] at ha
  simp only [List.cons.injEq] at ha
  exact hcd ha.1.symm

theorem invalidSegment_data (p : String) :
    (invalidSegment p).data
      = 'I' :: ("nvalid segment (" ++ (p ++ "). Paths must not contain // in them.")).data := by
  simp [invalidSegment, String.data_append]

theorem invalidDocumentReference_data (segs : List String) : ∃ rest,
    (invalidDocumentReference segs).data = 'I' :: rest := by
  refine ⟨("nvalid document reference. Document references must have an even number of segments, but "
    ++ ("/".intercalate segs ++ (" has " ++ (toString segs.length ++ ".")))).data, ?_⟩
  simp [invalidDocumentReference, String.data_append]

/-- The errors of a refused path are none of the three errors that
`createBookingAtomic` throws itself, and differ from `not-found`. -/
theorem slotDoc_error_ne (p e : String) (h : slotDoc p = .error e) :
    e ≠ "Not authenticated" ∧ e ≠ "Slot not found" ∧ e ≠ "Slot not available" ∧
      e ≠ notFound := by
  have hI : ∃ rest, e.data = 'I' :: rest := by
    unfold slotDoc at h
    split at h
    · simp only [Except.error.injEq] at h
      subst h
      exact ⟨_, invalidSegment_data p⟩
    · split at h
      · simp at h
      · split at h
        · simp at h
        · simp only [Except.error.injEq] at h
          subst h
          exact invalidDocumentReference_data _
  obtain ⟨rest, hrest⟩ := hI
  exact ⟨ne_of_first_char _ _ 'I' 'N' rest _ hrest rfl (by decide),
    ne_of_first_char _ _ 'I' 'S' rest _ hrest rfl (by decide),
    ne_of_first_char _ _ 'I' 'S' rest _ hrest rfl (by decide),
    ne_of_first_char _ _ 'I' 'n' rest _ hrest rfl (by decide)⟩

theorem splitSlash_of_no_slash (l : List Char) (h : '/' ∉ l) : splitSlash l = [l] := by
  induction l with
  | nil => rfl
  | cons c cs ih =>
    simp only [List.mem_cons, not_or] at h
    have hc : c ≠ '/' := fun hc => h.1 hc.symm
    simp [splitSlash, hc, ih h.2]

theorem hasDoubleSlash_of_no_slash (l : List Char) (h : '/' ∉ l) :
    hasDoubleSlash l = false := by
  induction l with
  | nil => rfl
  | cons a rest ih =>
    cases rest with
    | nil => rfl
    | cons b rest =>
      simp only [List.mem_cons, not_or] at h
      have ha : a ≠ '/' := fun ha => h.1 ha.symm
      have := ih (by simp only [List.mem_cons, not_or]; exact h.2)
      simp [hasDoubleSlash, ha, this]

/-- An identifier that is not empty and has no slash in it is read as the
document of `parking_slots` with that identifier. -/
theorem slotDoc_of_plain (id : String) (hne : id ≠ "") (hns : '/' ∉ id.toList) :
    slotDoc id = .ok (slotRef id) := by
  have hns' : '/' ∉ id.data := hns
  have hdata : id.data ≠ [] := by
    intro h
    apply hne
    cases id with
    | mk data => simp only at h; subst h; rfl
  have hseg : pathSegments id = [id] := by
    show ((splitSlash id.data).filter (fun seg => !seg.isEmpty)).map String.mk = [id]
    rw [splitSlash_of_no_slash _ hns']
    have hemp : id.data.isEmpty = false := by
      cases hd : id.data with
      | nil => exact absurd hd hdata
      | cons _ _ => rfl
    simp [List.filter, hemp]
  unfold slotDoc
  rw [show id.toList = id.data from rfl, hasDoubleSlash_of_no_slash _ hns', hseg]
  rfl

/-- A path that leads to a stored document leads into `parking_slots`. -/
theorem slotRef_of_getDoc (p : String) (ref : DocRef) (s : Store) (slot : Doc)
    (hdoc : slotDoc p = .ok ref) (h : s.getDoc ref = some slot) :
    ∃ id, ref = slotRef id ∧ assocGet id s.parking_slots = some slot := by
  rcases slotDoc_cases p with ⟨e, he⟩ | ⟨id, hid⟩ | ⟨path, id, hid⟩
  · rw [he] at hdoc; simp at hdoc
  · rw [hid] at hdoc
    simp only [Except.ok.injEq] at hdoc
    subst hdoc
    exact ⟨id, rfl, h⟩
  · rw [hid] at hdoc
    simp only [Except.ok.injEq] at hdoc
    subst hdoc
    simp [Store.getDoc, Store.coll, assocGet] at h

/-- How slot ids are read: a plain id and the same id with a slash before or
after it are the same document; the empty id, `a/b` and `a//b` are refused;
`a/b/c` is a document of a subcollection. -/
theorem slotDoc_examples :
    slotDoc "S1" = .ok (slotRef "S1") ∧
    slotDoc "S1/" = .ok (slotRef "S1") ∧
    slotDoc "/S1" = .ok (slotRef "S1") ∧
    slotDoc "" = .error (invalidDocumentReference ["parking_slots"]) ∧
    slotDoc "a/b" = .error (invalidDocumentReference ["parking_slots", "a", "b"]) ∧
    slotDoc "a//b" = .error (invalidSegment "a//b") ∧
    slotDoc "a/b/c" = .ok ⟨.other ["parking_slots", "a", "b"], "c"⟩ :=
  ⟨rfl, rfl, rfl, rfl, rfl, rfl, rfl⟩

theorem createBookingAtomic_invalid (user : User) (autoId : String) (now : Nat)
    (a : BookingArgs) (s : Store) (e : String) (hdoc : slotDoc a.slotId = .error e) :
    createBookingAtomic (some user) autoId now a s = (.error e, s) := by
  simp [createBookingAtomic, hdoc]

theorem createBookingAtomic_not_found (user : User) (autoId : String) (now : Nat)
    (a : BookingArgs) (s : Store) (ref : DocRef) (hdoc : slotDoc a.slotId = .ok ref)
    (h : s.getDoc ref = none) :
    createBookingAtomic (some user) autoId now a s = (.error "Slot not found", s) := by
  simp [createBookingAtomic, hdoc, runTransaction, createBookingTx, h]

theorem createBookingAtomic_taken_ref (user : User) (autoId : String) (now : Nat)
    (a : BookingArgs) (s : Store) (ref : DocRef) (slot : Doc)
    (hdoc : slotDoc a.slotId = .ok ref) (h : s.getDoc ref = some slot)
    (ht : slotTaken slot = true) :
    createBookingAtomic (some user) autoId now a s = (.error "Slot not available", s) := by
  simp [createBookingAtomic, hdoc, runTransaction, createBookingTx, h, ht]

theorem createBookingAtomic_elsewhere (user : User) (autoId : String) (now : Nat)
    (a : BookingArgs) (s : Store) (path : List String) (id : String)
    (hdoc : slotDoc a.slotId = .ok ⟨.other path, id⟩) :
    createBookingAtomic (some user) autoId now a s = (.error "Slot not found", s) :=
  createBookingAtomic_not_found user autoId now a s _ hdoc rfl

theorem createBookingAtomic_missing (user : User) (autoId : String) (now : Nat)
    (a : BookingArgs) (s : Store) (id : String) (hdoc : slotDoc a.slotId = .ok (slotRef id))
    (h : assocGet id s.parking_slots = none) :
    createBookingAtomic (some user) autoId now a s = (.error "Slot not found", s) :=
  createBookingAtomic_not_found user autoId now a s _ hdoc h

theorem createBookingAtomic_taken (user : User) (autoId : String) (now : Nat)
    (a : BookingArgs) (s : Store) (id : String) (slot : Doc)
    (hdoc : slotDoc a.slotId = .ok (slotRef id))
    (h : assocGet id s.parking_slots = some slot) (ht : slotTaken slot = true) :
    createBookingAtomic (some user) autoId now a s = (.error "Slot not available", s) :=
  createBookingAtomic_taken_ref user autoId now a s _ slot hdoc h ht

theorem createBookingAtomic_free (user : User) (autoId : String) (now : Nat)
    (a : BookingArgs) (s : Store) (id : String) (slot : Doc)
    (hdoc : slotDoc a.slotId = .ok (slotRef id))
    (h : assocGet id s.parking_slots = some slot) (ht : slotTaken slot = false) :
    createBookingAtomic (some user) autoId now a s
      = (.ok autoId, reservedStore user autoId now a id slot s) := by
  have hget : s.getDoc (slotRef id) = some slot := h
  simp [createBookingAtomic, hdoc, runTransaction, createBookingTx, hget, ht, Store.commit,
    Store.applyWrite, bookingDocRef, Store.setColl, reservedStore, Store.getDoc, slotRef,
    Store.coll, h]

/-- Every call of `createBookingAtomic` either fails and leaves the store as
it was, or finds the slot document free and commits both writes. -/
theorem createBookingAtomic_cases (currentUser : Option User) (autoId : String) (now : Nat)
    (a : BookingArgs) (s : Store) :
    (∃ e, createBookingAtomic currentUser autoId now a s = (.error e, s)) ∨
    (∃ user id slot, currentUser = some user ∧ slotDoc a.slotId = .ok (slotRef id) ∧
      assocGet id s.parking_slots = some slot ∧ slotTaken slot = false ∧
      createBookingAtomic currentUser autoId now a s
        = (.ok autoId, reservedStore user autoId now a id slot s)) := by
  cases currentUser with
  | none => exact Or.inl ⟨_, rfl⟩
  | some user =>
    rcases slotDoc_cases a.slotId with ⟨e, hdoc⟩ | ⟨id, hdoc⟩ | ⟨path, id, hdoc⟩
    · exact Or.inl ⟨_, createBookingAtomic_invalid user autoId now a s e hdoc⟩
    · cases hg : assocGet id s.parking_slots with
      | none => exact Or.inl ⟨_, createBookingAtomic_missing user autoId now a s id hdoc hg⟩
      | some slot =>
        cases ht : slotTaken slot with
        | true => exact Or.inl ⟨_, createBookingAtomic_taken user autoId now a s id slot hdoc hg ht⟩
        | false =>
          exact Or.inr ⟨user, id, slot, rfl, hdoc, hg, ht,
            createBookingAtomic_free user autoId now a s id slot hdoc hg ht⟩
    · exact Or.inl ⟨_, createBookingAtomic_elsewhere user autoId now a s path id hdoc⟩

/-- Every outcome of `createBookingAtomic` with a booking id comes from the
success branch: the slot was read, was not taken, and both writes were
committed. -/
theorem createBookingAtomic_ok_inv (currentUser : Option User) (autoId : String) (now : Nat)
    (a : BookingArgs) (s s' : Store) (bookingId : String)
    (h : createBookingAtomic currentUser autoId now a s = (.ok bookingId, s')) :
    ∃ user id slot, currentUser = some user ∧ slotDoc a.slotId = .ok (slotRef id) ∧
      assocGet id s.parking_slots = some slot ∧
      slotTaken slot = false ∧ bookingId = autoId ∧
      s' = reservedStore user autoId now a id slot s := by
  rcases createBookingAtomic_cases currentUser autoId now a s with
    ⟨e, he⟩ | ⟨user, id, slot, hu, hdoc, hg, ht, hres⟩
  · rw [he] at h
    simp at h
  · rw [hres] at h
    simp only [Prod.mk.injEq, Except.ok.injEq] at h
    exact ⟨user, id, slot, hu, hdoc, hg, ht, h.1.symm, h.2.symm⟩

theorem getDoc_slot_reservedStore (user : User) (autoId : String) (now : Nat)
    (a : BookingArgs) (id : String) (slot : Doc) (s : Store) :
    (reservedStore user autoId now a id slot s).getDoc (slotRef id)
      = some (slot.update (reservedFields autoId a)) := by
  simp [reservedStore, Store.getDoc, slotRef, Store.coll, assocGet_assocSet_self]

theorem getDoc_booking_reservedStore (user : User) (autoId : String) (now : Nat)
    (a : BookingArgs) (id : String) (slot : Doc) (s : Store) :
    (reservedStore user autoId now a id slot s).getDoc (bookingDocRef autoId)
      = some (bookingData user now a) := by
  simp [reservedStore, Store.getDoc, bookingDocRef, Store.coll, assocGet_assocSet_self]

theorem slotTaken_of_status (slot : Doc) (st : String)
    (h : slot.get "status" = some (.str st)) :
    slotTaken slot = (decide (st = "booked") || decide (st = "reserved")) := by
  simp [slotTaken, strictEqStr, h]

/-- The state a successful reservation leaves: the booking under the returned
id, and the slot document that `slotId` refers to marked with it. -/
theorem reserve_success_marks_slot_aux (user : User) (autoId : String) (now : Nat)
    (a : BookingArgs) (s s' : Store) (bookingId : String)
    (h : createBookingAtomic (some user) autoId now a s = (.ok bookingId, s')) :
    s'.getDoc (bookingDocRef bookingId) = some (bookingData user now a) ∧
    ∃ ref slot', slotDoc a.slotId = .ok ref ∧ s'.getDoc ref = some slot' ∧
      slot'.get "status" = some (.str "reserved") ∧
      slot'.get "currentBookingId" = some (.str bookingId) ∧
      slot'.get "reservedUntil" = some a.endTimeISO := by
  obtain ⟨user', id, slot, hu, hdoc, _, _, hid, hs'⟩ :=
    createBookingAtomic_ok_inv _ _ _ _ _ _ _ h
  cases hu
  subst hid
  subst hs'
  refine ⟨getDoc_booking_reservedStore _ _ _ _ _ _ _, slotRef id, _, hdoc,
    getDoc_slot_reservedStore _ _ _ _ _ _ _,
    get_status_update_reserved _ _ _, get_currentBookingId_update_reserved _ _ _,
    get_reservedUntil_update_reserved _ _ _⟩

/-! ## The claims -/

/-- C1: when `createBookingAtomic` succeeds for a signed-in caller and returns
`bookingId`, the booking written by that call is stored under `bookingId`, and
the slot document that `slotId` refers to has `status = "reserved"`,
`currentBookingId = bookingId` and `reservedUntil = endTime`. -/
theorem reserve_success_marks_slot (user : User) (autoId : String) (now : Nat)
    (a : BookingArgs) (s s' : Store) (bookingId : String)
    (h : createBookingAtomic (some user) autoId now a s = (.ok bookingId, s')) :
    s'.getDoc (bookingDocRef bookingId) = some (bookingData user now a) ∧
    ∃ ref slot', slotDoc a.slotId = .ok ref ∧ s'.getDoc ref = some slot' ∧
      slot'.get "status" = some (.str "reserved") ∧
      slot'.get "currentBookingId" = some (.str bookingId) ∧
      slot'.get "reservedUntil" = some a.endTimeISO := by
  obtain ⟨user', id, slot, hu, hdoc, _, _, hid, hs'⟩ :=
    createBookingAtomic_ok_inv _ _ _ _ _ _ _ h
  cases hu
  subst hid
  subst hs'
  refine ⟨getDoc_booking_reservedStore _ _ _ _ _ _ _, slotRef id, _, hdoc,
    getDoc_slot_reservedStore _ _ _ _ _ _ _,
    get_status_update_reserved _ _ _, get_currentBookingId_update_reserved _ _ _,
    get_reservedUntil_update_reserved _ _ _⟩

theorem reserve_success_marks_slot_witness :
    createBookingAtomic (some alice) "b1" 1000 args0 store0 = (.ok "b1", store1) ∧
    slotDoc args0.slotId = .ok (slotRef "S1") ∧
    store1.getDoc (bookingDocRef "b1") = some (bookingData alice 1000 args0) ∧
    ∃ ref slot', slotDoc args0.slotId = .ok ref ∧ store1.getDoc ref = some slot' ∧
      slot'.get "status" = some (.str "reserved") ∧
      slot'.get "currentBookingId" = some (.str "b1") ∧
      slot'.get "reservedUntil" = some args0.endTimeISO :=
  ⟨rfl, rfl, reserve_success_marks_slot alice "b1" 1000 args0 store0 store1 "b1" rfl⟩

theorem assocGet_eq_none_of_hasBooking_false (s : Store) (id : String)
    (h : s.hasBooking id = false) : assocGet id s.bookings = none := by
  simpa [Store.hasBooking] using h

theorem filter_key_eq_nil {β : Type} (k : String) (l : List (String × β))
    (h : assocGet k l = none) : l.filter (fun e => decide (e.1 = k)) = [] := by
  induction l with
  | nil => rfl
  | cons e rest ih =>
    obtain ⟨k1, v1⟩ := e
    by_cases hk : k1 = k
    · simp [assocGet, hk] at h
    · simp [assocGet, hk] at h
      simp [List.filter_cons, hk, ih h]

/-- C2: with slot `S1` present and `available`, two reserve calls for `S1` by
signed-in callers, run one after the other as whole transactions: the first
returns its booking id and leaves `S1` reserved, the second fails with
"Slot not available" and changes nothing.  The bookings afterwards are those
before with the first call's booking written under its id; when that id is new
they are the old ones followed by exactly that one booking, which names `S1`.
Both callers and both argument records are arbitrary, so either may be first. -/
theorem sequential_reserves_exclusive (u1 u2 : User) (id1 id2 : String) (t1 t2 : Nat)
    (a1 a2 : BookingArgs) (s : Store) (ref : DocRef) (slot : Doc)
    (hdoc : slotDoc a1.slotId = .ok ref)
    (hslot : s.getDoc ref = some slot)
    (havail : slot.get "status" = some (.str "available"))
    (hsame : slotDoc a2.slotId = .ok ref) :
    (createBookingAtomic (some u1) id1 t1 a1 s).1 = .ok id1 ∧
    (∃ slot', (createBookingAtomic (some u1) id1 t1 a1 s).2.getDoc ref
        = some slot' ∧ slot'.get "status" = some (.str "reserved")) ∧
    createBookingAtomic (some u2) id2 t2 a2 (createBookingAtomic (some u1) id1 t1 a1 s).2
      = (.error "Slot not available", (createBookingAtomic (some u1) id1 t1 a1 s).2) ∧
    (createBookingAtomic (some u1) id1 t1 a1 s).2.bookings
      = assocSet id1 (bookingData u1 t1 a1) s.bookings ∧
    (s.hasBooking id1 = false →
      (createBookingAtomic (some u1) id1 t1 a1 s).2.bookings
        = s.bookings ++ [(id1, bookingData u1 t1 a1)]) ∧
    (bookingData u1 t1 a1).get "slotId" = some (.str a1.slotId) := by
  obtain ⟨id, hid, hg⟩ := slotRef_of_getDoc _ _ _ _ hdoc hslot
  subst hid
  have ht : slotTaken slot = false := by
    rw [slotTaken_of_status slot "available" havail]; decide
  rw [createBookingAtomic_free u1 id1 t1 a1 s id slot hdoc hg ht]
  have hg2 : assocGet id (reservedStore u1 id1 t1 a1 id slot s).parking_slots
      = some (slot.update (reservedFields id1 a1)) :=
    getDoc_slot_reservedStore u1 id1 t1 a1 id slot s
  have ht2 : slotTaken (slot.update (reservedFields id1 a1)) = true := by
    rw [slotTaken_of_status _ "reserved" (get_status_update_reserved _ _ _)]; decide
  refine ⟨rfl, ⟨_, getDoc_slot_reservedStore u1 id1 t1 a1 id slot s,
    get_status_update_reserved _ _ _⟩,
    createBookingAtomic_taken u2 id2 t2 a2 _ id _ hsame hg2 ht2, rfl, ?_, rfl⟩
  intro hfresh
  exact assocSet_of_assocGet_none _ _ _ (assocGet_eq_none_of_hasBooking_false s id1 hfresh)

theorem sequential_reserves_exclusive_witness :
    (createBookingAtomic (some alice) "b1" 1000 args0 store0).1 = .ok "b1" ∧
    (∃ slot', (createBookingAtomic (some alice) "b1" 1000 args0 store0).2.getDoc
        (slotRef "S1") = some slot' ∧ slot'.get "status" = some (.str "reserved")) ∧
    createBookingAtomic (some bob) "b2" 1001 args0
        (createBookingAtomic (some alice) "b1" 1000 args0 store0).2
      = (.error "Slot not available",
          (createBookingAtomic (some alice) "b1" 1000 args0 store0).2) ∧
    (createBookingAtomic (some alice) "b1" 1000 args0 store0).2.bookings
      = assocSet "b1" (bookingData alice 1000 args0) store0.bookings ∧
    (store0.hasBooking "b1" = false →
      (createBookingAtomic (some alice) "b1" 1000 args0 store0).2.bookings
        = store0.bookings ++ [("b1", bookingData alice 1000 args0)]) ∧
    (bookingData alice 1000 args0).get "slotId" = some (.str args0.slotId) :=
  sequential_reserves_exclusive alice bob "b1" "b2" 1000 1001 args0 args0 store0
    (slotRef "S1") seededSlot rfl rfl rfl rfl

/-- C4, as the code has it: `createBookingAtomic` is all-or-nothing.  Either
it fails and the store is the initial store, the error being
"Not authenticated", "Slot not found", "Slot not available", or the error of
the client for a `slotId` that is not the path of a document; or it returns
the booking id and the store holds both the new booking and the slot with the
reservation fields merged into it. -/
theorem reserve_all_or_nothing (currentUser : Option User) (autoId : String) (now : Nat)
    (a : BookingArgs) (s : Store) :
    (((createBookingAtomic currentUser autoId now a s).1 = .error "Not authenticated" ∨
      (createBookingAtomic currentUser autoId now a s).1 = .error "Slot not found" ∨
      (createBookingAtomic currentUser autoId now a s).1 = .error "Slot not available" ∨
      (∃ e, slotDoc a.slotId = .error e ∧
        (createBookingAtomic currentUser autoId now a s).1 = .error e)) ∧
      (createBookingAtomic currentUser autoId now a s).2 = s) ∨
    (∃ user ref slot, currentUser = some user ∧ slotDoc a.slotId = .ok ref ∧
      s.getDoc ref = some slot ∧
      (createBookingAtomic currentUser autoId now a s).1 = .ok autoId ∧
      (createBookingAtomic currentUser autoId now a s).2.getDoc (bookingDocRef autoId)
        = some (bookingData user now a) ∧
      (createBookingAtomic currentUser autoId now a s).2.getDoc ref
        = some (slot.update (reservedFields autoId a))) := by
  cases currentUser with
  | none => exact Or.inl ⟨Or.inl rfl, rfl⟩
  | some user =>
    rcases slotDoc_cases a.slotId with ⟨e, hdoc⟩ | ⟨id, hdoc⟩ | ⟨path, id, hdoc⟩
    · rw [createBookingAtomic_invalid user autoId now a s e hdoc]
      exact Or.inl ⟨Or.inr (Or.inr (Or.inr ⟨e, hdoc, rfl⟩)), rfl⟩
    · cases hg : assocGet id s.parking_slots with
      | none =>
        rw [createBookingAtomic_missing user autoId now a s id hdoc hg]
        exact Or.inl ⟨Or.inr (Or.inl rfl), rfl⟩
      | some slot =>
        cases ht : slotTaken slot with
        | true =>
          rw [createBookingAtomic_taken user autoId now a s id slot hdoc hg ht]
          exact Or.inl ⟨Or.inr (Or.inr (Or.inl rfl)), rfl⟩
        | false =>
          rw [createBookingAtomic_free user autoId now a s id slot hdoc hg ht]
          exact Or.inr ⟨user, slotRef id, slot, rfl, hdoc, hg, rfl,
            getDoc_booking_reservedStore _ _ _ _ _ _ _,
            getDoc_slot_reservedStore _ _ _ _ _ _ _⟩
    · rw [createBookingAtomic_elsewhere user autoId now a s path id hdoc]
      exact Or.inl ⟨Or.inr (Or.inl rfl), rfl⟩

/-- C4 fails as stated: for the slot id `a/b`, which is the path of a
collection and not of a document, a signed-in call fails with the error of
the client, which is none of "Not authenticated", "Slot not found" and
"Slot not available"; the store is unchanged. -/
theorem reserve_fails_with_fourth_error :
    createBookingAtomic (some alice) "b1" 1000 { args0 with slotId := "a/b" } store0
      = (.error ("Invalid document reference. Document references must have an even " ++
          "number of segments, but parking_slots/a/b has 3."), store0) ∧
    (createBookingAtomic (some alice) "b1" 1000 { args0 with slotId := "a/b" } store0).1
      ≠ .error "Not authenticated" ∧
    (createBookingAtomic (some alice) "b1" 1000 { args0 with slotId := "a/b" } store0).1
      ≠ .error "Slot not found" ∧
    (createBookingAtomic (some alice) "b1" 1000 { args0 with slotId := "a/b" } store0).1
      ≠ .error "Slot not available" ∧
    ∀ id, (createBookingAtomic (some alice) "b1" 1000 { args0 with slotId := "a/b" } store0).1
      ≠ .ok id := by
  have hdoc : slotDoc "a/b" = .error (invalidDocumentReference ["parking_slots", "a", "b"]) :=
    rfl
  have hmsg : invalidDocumentReference ["parking_slots", "a", "b"]
      = "Invalid document reference. Document references must have an even " ++
          "number of segments, but parking_slots/a/b has 3." := by decide
  have h := createBookingAtomic_invalid alice "b1" 1000 { args0 with slotId := "a/b" } store0
    _ hdoc
  obtain ⟨h1, h2, h3, _⟩ := slotDoc_error_ne _ _ hdoc
  rw [h]
  refine ⟨by rw [hmsg], ?_, ?_, ?_, ?_⟩
  · exact fun hc => h1 (Except.error.inj hc)
  · exact fun hc => h2 (Except.error.inj hc)
  · exact fun hc => h3 (Except.error.inj hc)
  · intro id hc
    exact Except.noConfusion hc

/-- C5, as the code has it: for a signed-in caller, a `slotId` that is the
path of a document which does not exist makes `createBookingAtomic` fail with
"Slot not found", and a `slotId` that is not the path of a document makes it
fail with the error of the client; either way the store, and with it the
bookings collection, is the one before the call. -/
theorem reserve_missing_slot (user : User) (autoId : String) (now : Nat)
    (a : BookingArgs) (s : Store) :
    (∀ ref, slotDoc a.slotId = .ok ref → s.getDoc ref = none →
      createBookingAtomic (some user) autoId now a s = (.error "Slot not found", s) ∧
      (createBookingAtomic (some user) autoId now a s).2.bookings = s.bookings) ∧
    (∀ e, slotDoc a.slotId = .error e →
      createBookingAtomic (some user) autoId now a s = (.error e, s) ∧
      (createBookingAtomic (some user) autoId now a s).2.bookings = s.bookings) := by
  constructor
  · intro ref hdoc hmissing
    have h := createBookingAtomic_not_found user autoId now a s ref hdoc hmissing
    exact ⟨h, by rw [h]⟩
  · intro e hdoc
    have h := createBookingAtomic_invalid user autoId now a s e hdoc
    exact ⟨h, by rw [h]⟩

theorem reserve_missing_slot_witness :
    (slotDoc "S9" = .ok (slotRef "S9") ∧ store0.getDoc (slotRef "S9") = none) ∧
    createBookingAtomic (some alice) "b1" 1000 { args0 with slotId := "S9" } store0
      = (.error "Slot not found", store0) ∧
    (createBookingAtomic (some alice) "b1" 1000 { args0 with slotId := "S9" } store0).2.bookings
      = store0.bookings :=
  ⟨⟨rfl, rfl⟩,
    (reserve_missing_slot alice "b1" 1000 { args0 with slotId := "S9" } store0).1
      (slotRef "S9") rfl rfl⟩

/-- C5 fails as stated: the empty slot id names no document of
`parking_slots`, yet a signed-in call does not fail with "Slot not found": the
client refuses the path with its own error. -/
theorem reserve_empty_slot_id :
    (∀ e ∈ store0.parking_slots, e.1 ≠ "") ∧
    createBookingAtomic (some alice) "b1" 1000 { args0 with slotId := "" } store0
      = (.error ("Invalid document reference. Document references must have an even " ++
          "number of segments, but parking_slots has 1."), store0) ∧
    (createBookingAtomic (some alice) "b1" 1000 { args0 with slotId := "" } store0).1
      ≠ .error "Slot not found" := by
  have hdoc : slotDoc "" = .error (invalidDocumentReference ["parking_slots"]) := rfl
  have hmsg : invalidDocumentReference ["parking_slots"]
      = "Invalid document reference. Document references must have an even " ++
          "number of segments, but parking_slots has 1." := by decide
  have h := createBookingAtomic_invalid alice "b1" 1000 { args0 with slotId := "" } store0
    _ hdoc
  obtain ⟨_, h2, _, _⟩ := slotDoc_error_ne _ _ hdoc
  rw [h]
  refine ⟨?_, by rw [hmsg], fun hc => h2 (Except.error.inj hc)⟩
  intro e he
  simp only [store0, List.mem_singleton] at he
  subst he
  decide

/-- C6: when the slot document that `slotId` refers to has
`status = "booked"`, `createBookingAtomic` fails with "Slot not available" for
every signed-in caller, the owner of the holding booking included, and the
store (so also the bookings collection) is unchanged. -/
theorem reserve_booked_slot (user : User) (autoId : String) (now : Nat)
    (a : BookingArgs) (s : Store) (ref : DocRef) (slot : Doc)
    (hdoc : slotDoc a.slotId = .ok ref)
    (hslot : s.getDoc ref = some slot)
    (hbooked : slot.get "status" = some (.str "booked")) :
    createBookingAtomic (some user) autoId now a s = (.error "Slot not available", s) ∧
    (createBookingAtomic (some user) autoId now a s).2.bookings = s.bookings := by
  have ht : slotTaken slot = true := by
    rw [slotTaken_of_status slot "booked" hbooked]; decide
  have h := createBookingAtomic_taken_ref user autoId now a s ref slot hdoc hslot ht
  exact ⟨h, by rw [h]⟩

theorem reserve_booked_slot_witness :
    (slotDoc args0.slotId = .ok (slotRef "S1") ∧
      storeBooked.getDoc (slotRef "S1")
        = some [ ("name", .str "Ruiru Town Parking"), ("status", .str "booked"),
                 ("currentBookingId", .str "b1") ]) ∧
    createBookingAtomic (some alice) "b2" 1001 args0 storeBooked
      = (.error "Slot not available", storeBooked) ∧
    (createBookingAtomic (some alice) "b2" 1001 args0 storeBooked).2.bookings
      = storeBooked.bookings :=
  ⟨⟨rfl, rfl⟩, reserve_booked_slot alice "b2" 1001 args0 storeBooked (slotRef "S1") _
    rfl rfl rfl⟩

/-- C7: `createBookingAtomic` fails with "Not authenticated" exactly when
there is no current user; then nothing is read or written: whatever the slot
id, the outcome is that error (not "Slot not found" nor "Slot not available")
and the store is unchanged. -/
theorem reserve_unauthenticated (currentUser : Option User) (autoId : String) (now : Nat)
    (a : BookingArgs) (s : Store) :
    ((createBookingAtomic currentUser autoId now a s).1 = .error "Not authenticated"
      ↔ currentUser = none) ∧
    createBookingAtomic none autoId now a s = (.error "Not authenticated", s) := by
  refine ⟨⟨fun h => ?_, fun h => by subst h; rfl⟩, rfl⟩
  cases currentUser with
  | none => rfl
  | some user =>
    exfalso
    rcases slotDoc_cases a.slotId with ⟨e, hdoc⟩ | ⟨id, hdoc⟩ | ⟨path, id, hdoc⟩
    · rw [createBookingAtomic_invalid user autoId now a s e hdoc] at h
      exact (slotDoc_error_ne _ _ hdoc).1 (Except.error.inj h)
    · cases hg : assocGet id s.parking_slots with
      | none =>
        rw [createBookingAtomic_missing user autoId now a s id hdoc hg] at h
        simp at h
      | some slot =>
        cases ht : slotTaken slot with
        | true =>
          rw [createBookingAtomic_taken user autoId now a s id slot hdoc hg ht] at h
          simp at h
        | false =>
          rw [createBookingAtomic_free user autoId now a s id slot hdoc hg ht] at h
          simp at h
    · rw [createBookingAtomic_elsewhere user autoId now a s path id hdoc] at h
      simp at h

theorem forall_key_ne_of_assocGet_none {β : Type} (k : String) (l : List (String × β))
    (h : assocGet k l = none) : ∀ e ∈ l, e.1 ≠ k := by
  induction l with
  | nil => simp
  | cons e rest ih =>
    obtain ⟨k1, v1⟩ := e
    by_cases hk : k1 = k
    · simp [assocGet, hk] at h
    · simp [assocGet, hk] at h
      intro e he
      rcases List.mem_cons.mp he with he | he
      · subst he; exact hk
      · exact ih h e he

theorem le_foldr_max (l : List Nat) (x : Nat) (h : x ∈ l) : x ≤ l.foldr max 0 := by
  induction l with
  | nil => simp at h
  | cons y rest ih =>
    rcases List.mem_cons.mp h with h | h
    · subst h; exact le_max_left _ _
    · exact le_trans (ih h) (le_max_right _ _)

/-- The identifier the store assigns is none of those in use. -/
theorem assignId_not_mem_usedIds (s : Store) : s.assignId ∉ s.usedIds := by
  intro hmem
  have hle : s.assignId.length ≤ (s.usedIds.map String.length).foldr max 0 :=
    le_foldr_max _ _ (List.mem_map_of_mem _ hmem)
  have hlen : s.assignId.length = (s.usedIds.map String.length).foldr max 0 + 1 := by
    simp [Store.assignId, String.length]
  omega

theorem hasBooking_assignId (s : Store) : s.hasBooking s.assignId = false := by
  have h : assocGet s.assignId s.bookings = none := by
    apply assocGet_eq_none_of_not_mem_keys
    intro hmem
    exact assignId_not_mem_usedIds s (List.mem_append_left _ hmem)
  simp [Store.hasBooking, h]

theorem refersTo_assignId (s : Store) : s.refersTo s.assignId = false := by
  simp only [Store.refersTo, List.any_eq_false]
  intro e he hc
  have hget : e.2.get "currentBookingId" = some (.str s.assignId) := by
    revert hc
    unfold strictEqStr
    split
    · rename_i t ht
      intro hc
      rw [ht, of_decide_eq_true hc]
    · intro hc; exact absurd hc (by simp)
  apply assignId_not_mem_usedIds s
  apply List.mem_append_right
  rw [List.mem_filterMap]
  exact ⟨e, he, by rw [hget]⟩

/-- The identifier the store assigns is one it may assign: not in use. -/
theorem mayAssign_assignId (s : Store) : s.mayAssign s.assignId = true := by
  simp [Store.mayAssign, hasBooking_assignId, refersTo_assignId]

/-- A successful call under an identifier that was not the id of a booking
writes one booking under it, with the fields of the call. -/
theorem booking_written_of_unused (user : User) (autoId : String) (now : Nat)
    (a : BookingArgs) (s s' : Store) (bookingId : String)
    (hfresh : s.hasBooking autoId = false)
    (h : createBookingAtomic (some user) autoId now a s = (.ok bookingId, s')) :
    (s'.bookings.filter (fun e => decide (e.1 = bookingId))).length = 1 ∧
    (∀ e ∈ s.bookings, e.1 ≠ bookingId) ∧
    ∃ b, s'.getDoc (bookingDocRef bookingId) = some b ∧
      b.get "userId" = some (.str user.uid) ∧
      b.get "slotId" = some (.str a.slotId) ∧
      b.get "slotName" = some a.slotName ∧
      b.get "startTime" = some a.startTimeISO ∧
      b.get "endTime" = some a.endTimeISO ∧
      b.get "amount" = some a.amount ∧
      b.get "paymentStatus" = some (.str "pending") ∧
      b.get "paystackRef" = some .null ∧
      b.get "reservedUntil" = some a.endTimeISO := by
  obtain ⟨user', id, slot, hu, _, _, _, hid, hs'⟩ :=
    createBookingAtomic_ok_inv _ _ _ _ _ _ _ h
  cases hu
  subst hid
  subst hs'
  have hnone := assocGet_eq_none_of_hasBooking_false s bookingId hfresh
  refine ⟨?_, forall_key_ne_of_assocGet_none _ _ hnone, _,
    getDoc_booking_reservedStore _ _ _ _ _ _ _, rfl, rfl, rfl, rfl, rfl, rfl, rfl, rfl, rfl⟩
  simp only [reservedStore]
  rw [assocSet_of_assocGet_none _ _ _ hnone, List.filter_append, filter_key_eq_nil _ _ hnone]
  simp

/-- C8: when `createBookingAtomic`, called with the identifier the store
assigns to the new document, succeeds and returns `bookingId`, then no booking
carried `bookingId` before the call, exactly one carries it afterwards, and
that booking has the caller as `userId`, the supplied `slotId`, `slotName`,
`startTime`, `endTime` and `amount`, `paymentStatus = "pending"`, a null
`paystackRef` and `reservedUntil = endTime`. -/
theorem reserve_writes_one_booking (user : User) (now : Nat)
    (a : BookingArgs) (s s' : Store) (bookingId : String)
    (h : createBookingAtomic (some user) s.assignId now a s = (.ok bookingId, s')) :
    (s'.bookings.filter (fun e => decide (e.1 = bookingId))).length = 1 ∧
    (∀ e ∈ s.bookings, e.1 ≠ bookingId) ∧
    ∃ b, s'.getDoc (bookingDocRef bookingId) = some b ∧
      b.get "userId" = some (.str user.uid) ∧
      b.get "slotId" = some (.str a.slotId) ∧
      b.get "slotName" = some a.slotName ∧
      b.get "startTime" = some a.startTimeISO ∧
      b.get "endTime" = some a.endTimeISO ∧
      b.get "amount" = some a.amount ∧
      b.get "paymentStatus" = some (.str "pending") ∧
      b.get "paystackRef" = some .null ∧
      b.get "reservedUntil" = some a.endTimeISO :=
  booking_written_of_unused user s.assignId now a s s' bookingId (hasBooking_assignId s) h

theorem reserve_writes_one_booking_witness :
    ((releaseSlot "S1" store1).2.assignId = "aaa" ∧
      createBookingAtomic (some bob) (releaseSlot "S1" store1).2.assignId 1001 args0
          (releaseSlot "S1" store1).2
        = (.ok "aaa", (createBookingAtomic (some bob) "aaa" 1001 args0
            (releaseSlot "S1" store1).2).2)) ∧
    ((createBookingAtomic (some bob) "aaa" 1001 args0 (releaseSlot "S1" store1).2).2.bookings.filter
      (fun e => decide (e.1 = "aaa"))).length = 1 ∧
    (∀ e ∈ (releaseSlot "S1" store1).2.bookings, e.1 ≠ "aaa") ∧
    ∃ b, (createBookingAtomic (some bob) "aaa" 1001 args0 (releaseSlot "S1" store1).2).2.getDoc
        (bookingDocRef "aaa") = some b ∧
      b.get "userId" = some (.str bob.uid) ∧
      b.get "slotId" = some (.str args0.slotId) ∧
      b.get "slotName" = some args0.slotName ∧
      b.get "startTime" = some args0.startTimeISO ∧
      b.get "endTime" = some args0.endTimeISO ∧
      b.get "amount" = some args0.amount ∧
      b.get "paymentStatus" = some (.str "pending") ∧
      b.get "paystackRef" = some .null ∧
      b.get "reservedUntil" = some args0.endTimeISO :=
  ⟨⟨by decide, rfl⟩,
    reserve_writes_one_booking bob 1001 args0 (releaseSlot "S1" store1).2
      (createBookingAtomic (some bob) "aaa" 1001 args0 (releaseSlot "S1" store1).2).2 "aaa" rfl⟩

/-! ## Release and the slot invariant -/

theorem get_status_update_released (d : Doc) :
    (d.update releasedFields).get "status" = some (.str "available") := by
  simp [Doc.update, Doc.get, releasedFields, assocGet_assocSet_self, assocGet_assocSet_ne]

theorem get_currentBookingId_update_released (d : Doc) :
    (d.update releasedFields).get "currentBookingId" = some .null := by
  simp [Doc.update, Doc.get, releasedFields, assocGet_assocSet_self, assocGet_assocSet_ne]

theorem get_reservedUntil_update_released (d : Doc) :
    (d.update releasedFields).get "reservedUntil" = some .null := by
  simp [Doc.update, Doc.get, releasedFields, assocGet_assocSet_self, assocGet_assocSet_ne]

theorem releaseSlot_invalid (slotId : String) (s : Store) (e : String)
    (hdoc : slotDoc slotId = .error e) : releaseSlot slotId s = (.error e, s) := by
  simp [releaseSlot, hdoc]

theorem releaseSlot_not_found (slotId : String) (s : Store) (ref : DocRef)
    (hdoc : slotDoc slotId = .ok ref) (h : s.getDoc ref = none) :
    releaseSlot slotId s = (.error notFound, s) := by
  simp [releaseSlot, hdoc, Store.applyWrite, h]

theorem releaseSlot_missing (slotId : String) (s : Store) (id : String)
    (hdoc : slotDoc slotId = .ok (slotRef id))
    (h : assocGet id s.parking_slots = none) :
    releaseSlot slotId s = (.error notFound, s) :=
  releaseSlot_not_found slotId s _ hdoc h

theorem releaseSlot_present (slotId : String) (s : Store) (id : String) (slot : Doc)
    (hdoc : slotDoc slotId = .ok (slotRef id))
    (h : assocGet id s.parking_slots = some slot) :
    releaseSlot slotId s = (.ok (), releasedStore id slot s) := by
  have hget : s.getDoc (slotRef id) = some slot := h
  simp only [releaseSlot, hdoc, Store.applyWrite, hget]
  rfl

/-- Every call of `releaseSlot` either fails and leaves the store as it was,
or finds the slot document and merges the released fields into it. -/
theorem releaseSlot_cases (slotId : String) (s : Store) :
    (∃ e, releaseSlot slotId s = (.error e, s)) ∨
    (∃ id slot, slotDoc slotId = .ok (slotRef id) ∧ assocGet id s.parking_slots = some slot ∧
      releaseSlot slotId s = (.ok (), releasedStore id slot s)) := by
  rcases slotDoc_cases slotId with ⟨e, hdoc⟩ | ⟨id, hdoc⟩ | ⟨path, id, hdoc⟩
  · exact Or.inl ⟨_, releaseSlot_invalid slotId s e hdoc⟩
  · cases hg : assocGet id s.parking_slots with
    | none => exact Or.inl ⟨_, releaseSlot_missing slotId s id hdoc hg⟩
    | some slot => exact Or.inr ⟨id, slot, hdoc, hg, releaseSlot_present slotId s id slot hdoc hg⟩
  · exact Or.inl ⟨_, releaseSlot_not_found slotId s _ hdoc rfl⟩

theorem slotInvariant_reserved_doc (s : Store) (d : Doc) (id : String) (a : BookingArgs)
    (h : s.hasBooking id = true) :
    slotInvariant s (d.update (reservedFields id a)) = true := by
  simp [slotInvariant, slotTaken, get_status_update_reserved,
    get_currentBookingId_update_reserved, strictEqStr, Store.namesBooking, h]

theorem slotInvariant_released_doc (s : Store) (d : Doc) :
    slotInvariant s (d.update releasedFields) = true := by
  simp [slotInvariant, slotTaken, get_status_update_released,
    get_currentBookingId_update_released, strictEqStr, Store.namesBooking, isUnset]

/-- Writing a booking under an identifier does not change which other
identifiers name a booking. -/
theorem namesBooking_of_not_referred (s s' : Store) (id : String) (data : Doc)
    (v : Option Value) (hb : s'.bookings = assocSet id data s.bookings)
    (hv : strictEqStr v id = false) : s'.namesBooking v = s.namesBooking v := by
  unfold Store.namesBooking
  split
  · rename_i b
    have hne : b ≠ id := by simpa [strictEqStr] using hv
    simp [Store.hasBooking, hb, assocGet_assocSet_ne id b data s.bookings hne]
  · rfl

theorem slotInvariant_congr (s s' : Store) (slot : Doc)
    (h : s'.namesBooking (slot.get "currentBookingId")
      = s.namesBooking (slot.get "currentBookingId")) :
    slotInvariant s' slot = slotInvariant s slot := by
  simp [slotInvariant, h]

theorem invariant_createBookingAtomic (currentUser : Option User) (autoId : String)
    (now : Nat) (a : BookingArgs) (s : Store) (hinv : s.invariant = true)
    (hid : s.refersTo autoId = false) :
    (createBookingAtomic currentUser autoId now a s).2.invariant = true := by
  rcases createBookingAtomic_cases currentUser autoId now a s with
    ⟨e, he⟩ | ⟨user, id, slot, _, _, _, _, hres⟩
  · rw [he]; exact hinv
  · rw [hres]
    simp only [Store.invariant, List.all_eq_true] at hinv ⊢
    intro e he
    have hhas : (reservedStore user autoId now a id slot s).hasBooking autoId = true := by
      simp [Store.hasBooking, reservedStore, assocGet_assocSet_self]
    rcases mem_assocSet _ _ _ e he with he | he
    · subst he
      exact slotInvariant_reserved_doc _ _ _ _ hhas
    · have hv : strictEqStr (e.2.get "currentBookingId") autoId = false := by
        simp only [Store.refersTo, List.any_eq_false] at hid
        simpa using hid e he
      rw [slotInvariant_congr s (reservedStore user autoId now a id slot s) e.2
        (namesBooking_of_not_referred s _ autoId (bookingData user now a) _ rfl hv)]
      exact hinv e he

theorem invariant_releaseSlot (slotId : String) (s : Store) (hinv : s.invariant = true) :
    (releaseSlot slotId s).2.invariant = true := by
  rcases releaseSlot_cases slotId s with ⟨e, he⟩ | ⟨id, slot, _, _, hres⟩
  · rw [he]; exact hinv
  · rw [hres]
    simp only [Store.invariant, List.all_eq_true] at hinv ⊢
    intro e he
    rcases mem_assocSet _ _ _ e he with he | he
    · subst he
      exact slotInvariant_released_doc _ _
    · rw [slotInvariant_congr s (releasedStore id slot s) e.2 rfl]
      exact hinv e he

/-- The invariant of one slot document, spelled out: the status is `reserved`
or `booked` if and only if `currentBookingId` is the id of a stored booking,
and an `available` slot has `currentBookingId` missing or null. -/
theorem slotInvariant_iff (s : Store) (slot : Doc) :
    slotInvariant s slot = true ↔
      ((slot.get "status" = some (.str "reserved") ∨ slot.get "status" = some (.str "booked"))
        ↔ ∃ b, slot.get "currentBookingId" = some (.str b) ∧ s.hasBooking b = true) ∧
      (slot.get "status" = some (.str "available") →
        slot.get "currentBookingId" = none ∨ slot.get "currentBookingId" = some .null) := by
  have e1 : ∀ v : Option Value, ∀ t : String,
      strictEqStr v t = true ↔ v = some (.str t) := by
    intro v t
    unfold strictEqStr
    split <;> simp_all
  have e2 : ∀ v : Option Value,
      s.namesBooking v = true ↔ ∃ b, v = some (.str b) ∧ s.hasBooking b = true := by
    intro v
    unfold Store.namesBooking
    split <;> simp_all
  have e3 : ∀ v : Option Value, isUnset v = true ↔ (v = none ∨ v = some .null) := by
    intro v
    unfold isUnset
    split <;> simp_all
  have e4 : slotTaken slot = true ↔
      (slot.get "status" = some (.str "reserved") ∨ slot.get "status" = some (.str "booked")) := by
    simp only [slotTaken, Bool.or_eq_true, e1]
    exact Or.comm
  rw [← e4, ← e2 (slot.get "currentBookingId"), ← e1 (slot.get "status") "available",
    ← e3 (slot.get "currentBookingId")]
  unfold slotInvariant
  generalize slotTaken slot = x
  generalize s.namesBooking (slot.get "currentBookingId") = y
  generalize strictEqStr (slot.get "status") "available" = z
  generalize isUnset (slot.get "currentBookingId") = w
  cases x <;> cases y <;> cases z <;> cases w <;> decide

/-- C9: the slot invariant (status `reserved` or `booked` exactly when
`currentBookingId` names an existing booking; `available` implies no
`currentBookingId`) is preserved by the engine: if every slot of a store
satisfies it, then so does every slot of the store after any sequence of
reserve calls (successful or failed) and release calls, a single call being
the sequence of length one.  Each reserve call is handed an identifier that
the store may assign, that is, one not in use at that moment. -/
theorem invariant_preserved (ops : List Op) (s : Store) (hinv : s.invariant = true)
    (hids : idsAssignable ops s = true) : (runOps ops s).invariant = true := by
  induction ops generalizing s with
  | nil => exact hinv
  | cons op ops ih =>
    simp only [idsAssignable, Bool.and_eq_true] at hids
    refine ih (op.run s) ?_ hids.2
    cases op with
    | reserve currentUser autoId now a =>
      have hid : s.refersTo autoId = false := by
        have := hids.1
        simp only [Op.idAssignable, Store.mayAssign, Bool.and_eq_true,
          Bool.not_eq_true'] at this
        exact this.2
      exact invariant_createBookingAtomic currentUser autoId now a s hinv hid
    | release slotId => exact invariant_releaseSlot slotId s hinv

theorem invariant_preserved_witness :
    (store0.invariant = true ∧
      idsAssignable [.reserve (some alice) "b1" 1000 args0, .reserve (some bob) "b2" 1001 args0,
        .release "S1", .reserve none "b3" 1002 args0,
        .reserve (some bob) "b4" 1003 args0] store0 = true) ∧
    (runOps [.reserve (some alice) "b1" 1000 args0, .reserve (some bob) "b2" 1001 args0,
        .release "S1", .reserve none "b3" 1002 args0,
        .reserve (some bob) "b4" 1003 args0] store0).invariant = true :=
  ⟨⟨rfl, rfl⟩, invariant_preserved _ store0 rfl rfl⟩

/-- C10: for every store and every `slotId` that names an existing slot,
whatever the fields of that slot and whatever bookings exist, `releaseSlot`
succeeds and leaves the slot with `status = "available"`,
`currentBookingId = null` and `reservedUntil = null`. -/
theorem release_makes_available (slotId : String) (s : Store) (ref : DocRef) (slot : Doc)
    (hdoc : slotDoc slotId = .ok ref)
    (hslot : s.getDoc ref = some slot) :
    (releaseSlot slotId s).1 = .ok () ∧
    ∃ slot', (releaseSlot slotId s).2.getDoc ref = some slot' ∧
      slot'.get "status" = some (.str "available") ∧
      slot'.get "currentBookingId" = some .null ∧
      slot'.get "reservedUntil" = some .null := by
  obtain ⟨id, hid, hg⟩ := slotRef_of_getDoc _ _ _ _ hdoc hslot
  subst hid
  rw [releaseSlot_present slotId s id slot hdoc hg]
  refine ⟨rfl, slot.update releasedFields, ?_, get_status_update_released _,
    get_currentBookingId_update_released _, get_reservedUntil_update_released _⟩
  simp [releasedStore, Store.getDoc, slotRef, Store.coll, assocGet_assocSet_self]

theorem release_makes_available_witness :
    (slotDoc "S1" = .ok (slotRef "S1") ∧
      storeBooked.getDoc (slotRef "S1")
        = some [ ("name", .str "Ruiru Town Parking"), ("status", .str "booked"),
                 ("currentBookingId", .str "b1") ]) ∧
    (releaseSlot "S1" storeBooked).1 = .ok () ∧
    ∃ slot', (releaseSlot "S1" storeBooked).2.getDoc (slotRef "S1") = some slot' ∧
      slot'.get "status" = some (.str "available") ∧
      slot'.get "currentBookingId" = some .null ∧
      slot'.get "reservedUntil" = some .null :=
  ⟨⟨rfl, rfl⟩, release_makes_available "S1" storeBooked (slotRef "S1") _ rfl rfl⟩

/-! ## Release twice, release of an available slot -/

theorem assocSet_eq_self {β : Type} (k : String) (v : β) (l : List (String × β))
    (h : assocGet k l = some v) : assocSet k v l = l := by
  induction l with
  | nil => simp [assocGet] at h
  | cons e rest ih =>
    obtain ⟨k1, v1⟩ := e
    by_cases hk : k1 = k
    · simp [assocGet, hk] at h
      simp [assocSet, hk, h]
    · simp [assocGet, hk] at h
      simp [assocSet, hk, ih h]

/-- A document that already carries the three released fields is left as it
is by the merge of `releaseSlot`. -/
theorem update_released_eq_self (d : Doc)
    (hs : d.get "status" = some (.str "available"))
    (hc : d.get "currentBookingId" = some .null)
    (hr : d.get "reservedUntil" = some .null) :
    d.update releasedFields = d := by
  simp only [Doc.update, releasedFields, List.foldl]
  rw [assocSet_eq_self _ _ d hs, assocSet_eq_self _ _ d hc, assocSet_eq_self _ _ d hr]

theorem releaseSlot_of_released (slotId : String) (s : Store) (id : String) (slot : Doc)
    (hdoc : slotDoc slotId = .ok (slotRef id))
    (hslot : assocGet id s.parking_slots = some slot)
    (hs : slot.get "status" = some (.str "available"))
    (hc : slot.get "currentBookingId" = some .null)
    (hr : slot.get "reservedUntil" = some .null) :
    releaseSlot slotId s = (.ok (), s) := by
  rw [releaseSlot_present slotId s id slot hdoc hslot]
  simp only [releasedStore, update_released_eq_self slot hs hc hr,
    assocSet_eq_self _ _ _ hslot]

/-- C11: `releaseSlot` is idempotent: for every store and every slot id, the
store after two releases in succession is the store after one. -/
theorem release_idempotent (slotId : String) (s : Store) :
    (releaseSlot slotId (releaseSlot slotId s).2).2 = (releaseSlot slotId s).2 := by
  rcases releaseSlot_cases slotId s with ⟨e, he⟩ | ⟨id, slot, hdoc, _, hres⟩
  · rw [he]
    simp only
    rw [he]
  · rw [hres]
    simp only
    rw [releaseSlot_of_released slotId (releasedStore id slot s) id
      (slot.update releasedFields) hdoc
      (by simp [releasedStore, assocGet_assocSet_self])
      (get_status_update_released _) (get_currentBookingId_update_released _)
      (get_reservedUntil_update_released _)]

/-- C12, as the code has it: releasing a slot whose status is `available` and
whose `currentBookingId` and `reservedUntil` are both present and null
succeeds and leaves the store exactly as it was. -/
theorem release_available_noop (slotId : String) (s : Store) (ref : DocRef) (slot : Doc)
    (hdoc : slotDoc slotId = .ok ref)
    (hslot : s.getDoc ref = some slot)
    (hs : slot.get "status" = some (.str "available"))
    (hc : slot.get "currentBookingId" = some .null)
    (hr : slot.get "reservedUntil" = some .null) :
    releaseSlot slotId s = (.ok (), s) := by
  obtain ⟨id, hid, hg⟩ := slotRef_of_getDoc _ _ _ _ hdoc hslot
  subst hid
  exact releaseSlot_of_released slotId s id slot hdoc hg hs hc hr

theorem release_available_noop_witness :
    releaseSlot "S1" (releaseSlot "S1" store0).2 = (.ok (), (releaseSlot "S1" store0).2) :=
  release_available_noop "S1" (releaseSlot "S1" store0).2 (slotRef "S1")
    ((seededSlot).update releasedFields) rfl rfl rfl rfl rfl

/-- C12 fails as stated: the seeded slot `S1` of `store0` has status
`available` and neither a `currentBookingId` nor a `reservedUntil` field;
`releaseSlot` adds both with value null, so the store after the call is not
the store before it. -/
theorem release_available_changes_store :
    (∃ slot, store0.getDoc (slotRef "S1") = some slot ∧
      slot.get "status" = some (.str "available")) ∧
    (releaseSlot "S1" store0).2 ≠ store0 := by
  refine ⟨⟨seededSlot, rfl, rfl⟩, fun h => ?_⟩
  have h1 : ((releaseSlot "S1" store0).2.getDoc (slotRef "S1")).bind
      (fun d => d.get "currentBookingId") = some .null := rfl
  have h2 : (store0.getDoc (slotRef "S1")).bind
      (fun d => d.get "currentBookingId") = none := rfl
  rw [h] at h1
  rw [h2] at h1
  exact Option.noConfusion h1

/-! ## Bookings: the window and write-once -/

theorem bookings_releaseSlot (slotId : String) (s : Store) :
    (releaseSlot slotId s).2.bookings = s.bookings := by
  rcases releaseSlot_cases slotId s with ⟨e, he⟩ | ⟨id, slot, _, _, hres⟩
  · rw [he]
  · rw [hres]; rfl

/-- The bookings after one call of `createBookingAtomic`: unchanged, or with
the booking of this call written under the assigned identifier. -/
theorem bookings_createBookingAtomic (currentUser : Option User) (autoId : String)
    (now : Nat) (a : BookingArgs) (s : Store) :
    (createBookingAtomic currentUser autoId now a s).2.bookings = s.bookings ∨
    ∃ user, currentUser = some user ∧
      (createBookingAtomic currentUser autoId now a s).2.bookings
        = assocSet autoId (bookingData user now a) s.bookings := by
  rcases createBookingAtomic_cases currentUser autoId now a s with
    ⟨e, he⟩ | ⟨user, id, slot, hu, _, _, _, hres⟩
  · rw [he]; exact Or.inl rfl
  · rw [hres]; exact Or.inr ⟨user, hu, rfl⟩

theorem windowValid_bookingData (user : User) (now : Nat) (a : BookingArgs) :
    windowValid (bookingData user now a) = isAfter a.endTimeISO a.startTimeISO := rfl

theorem windowsValid_run (op : Op) (s : Store) (hs : s.windowsValid = true)
    (hop : op.windowGiven = true) : (op.run s).windowsValid = true := by
  cases op with
  | release slotId =>
    simp only [Op.run, Store.windowsValid, bookings_releaseSlot]
    exact hs
  | reserve currentUser autoId now a =>
    simp only [Op.run]
    rcases bookings_createBookingAtomic currentUser autoId now a s with h | ⟨user, _, h⟩
    · simp only [Store.windowsValid, h]; exact hs
    · simp only [Store.windowsValid, h, List.all_eq_true] at hs ⊢
      intro e he
      rcases mem_assocSet _ _ _ e he with he | he
      · subst he
        rw [windowValid_bookingData]
        exact hop
      · exact hs e he

/-- C14, as the code has it: the engine stores the window it is given and
never checks it.  Starting from a store whose bookings all have
`endTime > startTime`, after any sequence of release calls and of reserve
calls whose arguments have `endTime > startTime`, every booking of the store
has `endTime > startTime`. -/
theorem windows_preserved (ops : List Op) (s : Store) (hs : s.windowsValid = true)
    (hops : ∀ op ∈ ops, op.windowGiven = true) : (runOps ops s).windowsValid = true := by
  induction ops generalizing s with
  | nil => exact hs
  | cons op ops ih =>
    exact ih (op.run s) (windowsValid_run op s hs (hops op (List.mem_cons_self _ _)))
      (fun o ho => hops o (List.mem_cons_of_mem _ ho))

theorem windows_preserved_witness :
    store0.windowsValid = true ∧
    (runOps [.reserve (some alice) "b1" 1000 args0, .release "S1",
      .reserve (some bob) "b2" 1001 args0] store0).windowsValid = true :=
  ⟨rfl, windows_preserved _ store0 rfl (by
    intro op hop
    simp only [List.mem_cons, List.mem_singleton, List.not_mem_nil, or_false] at hop
    rcases hop with h | h | h <;> subst h <;> decide)⟩

/-- C14 fails as stated: in `store0`, which has no booking, `alice` reserves
`S1` from 11:00 to 09:00 of the same day; the call succeeds and the booking it
writes has its end before its start. -/
theorem backwards_window_is_stored :
    store0.windowsValid = true ∧
    (createBookingAtomic (some alice) "b1" 1000 argsBackwards store0).1 = .ok "b1" ∧
    (runOps [.reserve (some alice) "b1" 1000 argsBackwards] store0).windowsValid = false :=
  ⟨rfl, rfl, by decide⟩

theorem assocGet_append_of_some {β : Type} (k : String) (v : β) (l m : List (String × β))
    (h : assocGet k l = some v) : assocGet k (l ++ m) = some v := by
  induction l with
  | nil => simp [assocGet] at h
  | cons e rest ih =>
    obtain ⟨k1, v1⟩ := e
    by_cases hk : k1 = k
    · simp [assocGet, hk] at h
      simp [assocGet, hk, h]
    · simp [assocGet, hk] at h
      simp [assocGet, hk, ih h]

theorem bookings_run_append (op : Op) (s : Store) (hid : op.idAssignable s = true) :
    ∃ extra, (op.run s).bookings = s.bookings ++ extra := by
  cases op with
  | release slotId => exact ⟨[], by simp [Op.run, bookings_releaseSlot]⟩
  | reserve currentUser autoId now a =>
    simp only [Op.run]
    rcases bookings_createBookingAtomic currentUser autoId now a s with h | ⟨user, _, h⟩
    · exact ⟨[], by simp [h]⟩
    · have hfresh : s.hasBooking autoId = false := by
        simp only [Op.idAssignable, Store.mayAssign, Bool.and_eq_true,
          Bool.not_eq_true'] at hid
        exact hid.1
      refine ⟨[(autoId, bookingData user now a)], ?_⟩
      rw [h]
      exact assocSet_of_assocGet_none _ _ _
        (assocGet_eq_none_of_hasBooking_false s autoId hfresh)

theorem bookings_runOps_append (ops : List Op) (s : Store)
    (hids : idsAssignable ops s = true) :
    ∃ extra, (runOps ops s).bookings = s.bookings ++ extra := by
  induction ops generalizing s with
  | nil => exact ⟨[], by simp [runOps]⟩
  | cons op ops ih =>
    simp only [idsAssignable, Bool.and_eq_true] at hids
    obtain ⟨e1, h1⟩ := bookings_run_append op s hids.1
    obtain ⟨e2, h2⟩ := ih (op.run s) hids.2
    exact ⟨e1 ++ e2, by simp only [runOps]; rw [h2, h1, List.append_assoc]⟩

/-- C15: bookings are written once.  After any sequence of reserve and
release calls, each reserve being handed an identifier that the store may
assign, the bookings collection is the one before followed by the bookings
written since: every booking that existed before is still stored under its
identifier with all its fields unchanged, and none is deleted or rewritten. -/
theorem bookings_written_once (ops : List Op) (s : Store)
    (hids : idsAssignable ops s = true) :
    (∃ extra, (runOps ops s).bookings = s.bookings ++ extra) ∧
    ∀ id booking, s.getDoc (bookingDocRef id) = some booking →
      (runOps ops s).getDoc (bookingDocRef id) = some booking := by
  obtain ⟨extra, h⟩ := bookings_runOps_append ops s hids
  refine ⟨⟨extra, h⟩, fun id booking hb => ?_⟩
  simp only [Store.getDoc, bookingDocRef, Store.coll] at hb ⊢
  rw [h]
  exact assocGet_append_of_some _ _ _ _ hb

theorem bookings_written_once_witness :
    idsAssignable [.release "S1", .reserve (some bob) "b2" 1001 args0,
      .release "S1"] store1 = true ∧
    (∃ extra, (runOps [.release "S1", .reserve (some bob) "b2" 1001 args0,
      .release "S1"] store1).bookings = store1.bookings ++ extra) ∧
    ∀ id booking, store1.getDoc (bookingDocRef id) = some booking →
      (runOps [.release "S1", .reserve (some bob) "b2" 1001 args0,
        .release "S1"] store1).getDoc (bookingDocRef id) = some booking :=
  ⟨rfl, bookings_written_once _ store1 rfl⟩

/-- C18 against the code: the slot `S1` of `storeMaintenance` exists and its
status is `maintenance`, which is not `available`; a call by a signed-in user
does not throw "Slot not available": it returns a booking id, writes the
booking and marks the slot `reserved`. -/
theorem reserve_proceeds_when_not_available :
    (∃ slot, storeMaintenance.getDoc (slotRef "S1") = some slot ∧
      slot.get "status" = some (.str "maintenance")) ∧
    (createBookingAtomic (some alice) "b1" 1000 args0 storeMaintenance).1 = .ok "b1" ∧
    (createBookingAtomic (some alice) "b1" 1000 args0 storeMaintenance).2.getDoc
      (bookingDocRef "b1") = some (bookingData alice 1000 args0) ∧
    ((createBookingAtomic (some alice) "b1" 1000 args0 storeMaintenance).2.getDoc
      (slotRef "S1")).bind (fun d => d.get "status") = some (.str "reserved") :=
  ⟨⟨_, rfl, rfl⟩, rfl, rfl, rfl⟩

/-! ## The amount computed by the booking page -/

/-- With valid dates `e > s` and a slot whose `price_per_hour` is a non-zero
number `r`, the effect sets the amount to the hours of the window, rounded up,
times `r`. -/
theorem amountEffect_of_rate (toNumber : Value → Option ℚ)
    (hnum : ∀ q, toNumber (.num q) = some q) (start end_ : TimeInput) (slot : Doc)
    (prev : Option ℚ) (s e : Int) (r : ℚ)
    (hst : start.text ≠ "") (het : end_.text ≠ "")
    (hs : start.date = some s) (he : end_.date = some e) (hlt : s < e)
    (hrate : slot.get "price_per_hour" = some (.num r)) (hr : r ≠ 0) :
    amountEffect toNumber start end_ (some slot) prev
      = some ((⌈((e - s : ℤ) : ℚ) / (1000 * 60 * 60)⌉ : ℚ) * r) := by
  simp [amountEffect, hst, het, hs, he, not_le.mpr hlt, hrate, jsTruthy, hr, hnum]

/-- A slot without a `price_per_hour` field is charged at the rate 1. -/
theorem amountEffect_of_no_rate (toNumber : Value → Option ℚ)
    (start end_ : TimeInput) (slot : Doc)
    (prev : Option ℚ) (s e : Int)
    (hst : start.text ≠ "") (het : end_.text ≠ "")
    (hs : start.date = some s) (he : end_.date = some e) (hlt : s < e)
    (hrate : slot.get "price_per_hour" = none) :
    amountEffect toNumber start end_ (some slot) prev
      = some ((⌈((e - s : ℤ) : ℚ) / (1000 * 60 * 60)⌉ : ℚ) * 1) := by
  simp [amountEffect, hst, het, hs, he, not_le.mpr hlt, hrate]

theorem ceil_ninety_minutes :
    ⌈(((1735727400000 : ℤ) - 1735722000000 : ℤ) : ℚ) / (1000 * 60 * 60)⌉ = 2 := by
  rw [Int.ceil_eq_iff]
  norm_num

/-- C13 against the code: the seeded slot has the hourly price 10 (the field
`price`, shown as the price per hour in the listings) and no `price_per_hour`
field, which is the one the page reads.  For 09:00 to 10:30 the page computes
2, the two hours charged at the default rate 1, and not 20. -/
theorem amount_ignores_slot_price :
    seededPageSlot.get "price" = some (.num 10) ∧
    amountEffect numberOfNum nineOClock halfPastTen (some seededPageSlot) (some 0) = some 2 ∧
    amountEffect numberOfNum nineOClock halfPastTen (some seededPageSlot) (some 0) ≠ some 20 := by
  have h : amountEffect numberOfNum nineOClock halfPastTen (some seededPageSlot) (some 0)
      = some 2 := by
    rw [amountEffect_of_no_rate numberOfNum nineOClock halfPastTen seededPageSlot (some 0)
      1735722000000 1735727400000 (by decide) (by decide) rfl rfl (by decide) rfl]
    rw [ceil_ninety_minutes]
    norm_num
  refine ⟨rfl, h, ?_⟩
  rw [h]
  norm_num

/-- A slot whose `price_per_hour` is the number 0 is charged at the rate 1:
zero is falsy in the test `slot?.price_per_hour ? ... : 1.0`. -/
theorem amountEffect_of_zero_rate (toNumber : Value → Option ℚ)
    (start end_ : TimeInput) (slot : Doc)
    (prev : Option ℚ) (s e : Int)
    (hst : start.text ≠ "") (het : end_.text ≠ "")
    (hs : start.date = some s) (he : end_.date = some e) (hlt : s < e)
    (hrate : slot.get "price_per_hour" = some (.num 0)) :
    amountEffect toNumber start end_ (some slot) prev
      = some ((⌈((e - s : ℤ) : ℚ) / (1000 * 60 * 60)⌉ : ℚ) * 1) := by
  simp [amountEffect, hst, het, hs, he, not_le.mpr hlt, hrate, jsTruthy]

/-! ## Snapshot entries -/

/-- Fields merged into a document win over the fields it had; the others are
kept.  The merged fields are those of a document, each name occurring once. -/
theorem get_update (d fields : Doc) (k : String) (hnd : (fields.map Prod.fst).Nodup) :
    (d.update fields).get k
      = match fields.get k with
        | some v => some v
        | none => d.get k := by
  induction fields generalizing d with
  | nil => rfl
  | cons e rest ih =>
    obtain ⟨k1, v1⟩ := e
    simp only [List.map_cons, List.nodup_cons] at hnd
    have hstep : Doc.update d ((k1, v1) :: rest) = Doc.update (assocSet k1 v1 d) rest := rfl
    rw [hstep, ih (assocSet k1 v1 d) hnd.2]
    by_cases hk : k1 = k
    · subst hk
      have hnone : Doc.get rest k1 = none := assocGet_eq_none_of_not_mem_keys _ _ hnd.1
      simp [Doc.get, assocGet, assocGet_assocSet_self] at hnone ⊢
      simp [hnone, assocGet_assocSet_self]
    · have hne : k ≠ k1 := fun h => hk h.symm
      simp only [Doc.get, assocGet, hk, if_false]
      rw [assocGet_assocSet_ne k1 k v1 d hne]

theorem get_docEntry_of_field (d : String × Doc) (k : String) (v : Value)
    (hnd : (d.2.map Prod.fst).Nodup) (h : d.2.get k = some v) :
    (docEntry d).get k = some v := by
  rw [docEntry, get_update _ _ k hnd, h]

theorem get_docEntry_id (d : String × Doc) (hnd : (d.2.map Prod.fst).Nodup)
    (h : d.2.get "id" = none) : (docEntry d).get "id" = some (.str d.1) := by
  rw [docEntry, get_update _ _ "id" hnd, h]
  simp [Doc.get, assocGet]

theorem get_docEntry_of_no_field (d : String × Doc) (k : String)
    (hnd : (d.2.map Prod.fst).Nodup) (hk : k ≠ "id") (h : d.2.get k = none) :
    (docEntry d).get k = none := by
  rw [docEntry, get_update _ _ k hnd, h]
  simp [Doc.get, assocGet, Ne.symm hk]

/-- C17, as the code has it: for every snapshot of `parking_slots` whose
documents name each field once, the callback of `watchSlots` receives the
whole list: as many entries as documents, in the order of the snapshot, and
entry `i` has every data field of document `i` and no field beyond these and
`id`; its `id` is the identifier of document `i` when the document has no data
field named `id`. -/
theorem watchSlots_delivers_snapshot (snap : Collection)
    (hnd : ∀ d ∈ snap, (d.2.map Prod.fst).Nodup) :
    (watchSlots id snap).length = snap.length ∧
    ∀ (i : Nat) (d : String × Doc), snap[i]? = some d →
      ∃ e : Doc, (watchSlots id snap)[i]? = some e ∧
        (∀ k v, d.2.get k = some v → e.get k = some v) ∧
        (∀ k, k ≠ "id" → d.2.get k = none → e.get k = none) ∧
        (d.2.get "id" = none → e.get "id" = some (.str d.1)) := by
  refine ⟨by simp [watchSlots], fun i d hd => ⟨docEntry d, by simp [watchSlots, hd], ?_, ?_, ?_⟩⟩
  · exact fun k v h => get_docEntry_of_field d k v (hnd d (List.getElem?_mem hd)) h
  · exact fun k hk h => get_docEntry_of_no_field d k (hnd d (List.getElem?_mem hd)) hk h
  · exact fun h => get_docEntry_id d (hnd d (List.getElem?_mem hd)) h

theorem watchSlots_delivers_snapshot_witness :
    (watchSlots id store1.parking_slots).length = store1.parking_slots.length ∧
    ∀ (i : Nat) (d : String × Doc), store1.parking_slots[i]? = some d →
      ∃ e : Doc, (watchSlots id store1.parking_slots)[i]? = some e ∧
        (∀ k v, d.2.get k = some v → e.get k = some v) ∧
        (∀ k, k ≠ "id" → d.2.get k = none → e.get k = none) ∧
        (d.2.get "id" = none → e.get "id" = some (.str d.1)) :=
  watchSlots_delivers_snapshot store1.parking_slots (by
    intro d hd
    simp only [store1, List.mem_singleton] at hd
    subst hd
    decide)

/-- C17 fails as stated: the document `S1` of this snapshot has a data field
`id` with value `slot-7`; the entry delivered for it has `id = "slot-7"`, not
the identifier `S1` of the document. -/
theorem watchSlots_id_overridden :
    (watchSlots id snapWithIdField).map (fun e => e.get "id") = [some (.str "slot-7")] ∧
    (watchSlots id snapWithIdField).map (fun e => e.get "id")
      ≠ snapWithIdField.map (fun d => some (.str d.1)) := by
  refine ⟨rfl, fun h => ?_⟩
  have h1 : (watchSlots id snapWithIdField).map (fun e => e.get "id")
      = [some (.str "slot-7")] := rfl
  have h2 : snapWithIdField.map (fun d => some (Value.str d.1)) = [some (.str "S1")] := rfl
  rw [h1, h2] at h
  simp at h

/-! ## The bookings of a user -/

theorem userBookingsQuery_perm (userId : String) (bookings : Collection) :
    (userBookingsQuery userId bookings).Perm
      (bookings.filter (fun e => strictEqStr (e.2.get "userId") userId)) :=
  List.perm_insertionSort _ _

theorem userBookingsQuery_sorted (userId : String) (bookings : Collection) :
    (userBookingsQuery userId bookings).Pairwise
      (fun a b => (createdAtOf b.2).getD 0 ≤ (createdAtOf a.2).getD 0) := by
  haveI : IsTotal (String × Doc)
      (fun a b => (createdAtOf b.2).getD 0 ≤ (createdAtOf a.2).getD 0) :=
    ⟨fun a b => le_total _ _⟩
  haveI : IsTrans (String × Doc)
      (fun a b => (createdAtOf b.2).getD 0 ≤ (createdAtOf a.2).getD 0) :=
    ⟨fun _ _ _ hab hbc => le_trans hbc hab⟩
  exact List.sorted_insertionSort _ _

/-- C16: for every state of the bookings collection in which each booking
carries its creation timestamp, the list that `watchUserBookings` hands to the
callback is made of the entries of exactly the bookings whose `userId` is the
given one, each once, none of another user and none of the user's left out,
with creation times descending from first to last. -/
theorem watchUserBookings_delivers (userId : String) (bookings : Collection)
    (hts : ∀ e ∈ bookings, (createdAtOf e.2).isSome = true) :
    ∃ docs : Collection,
      watchUserBookings userId id bookings = docs.map docEntry ∧
      docs.Perm (bookings.filter (fun e => strictEqStr (e.2.get "userId") userId)) ∧
      docs.Pairwise (fun a b => ∃ ta tb,
        createdAtOf a.2 = some ta ∧ createdAtOf b.2 = some tb ∧ tb ≤ ta) := by
  refine ⟨userBookingsQuery userId bookings, rfl, userBookingsQuery_perm userId bookings, ?_⟩
  have hmem : ∀ d ∈ userBookingsQuery userId bookings, ∃ t, createdAtOf d.2 = some t := by
    intro d hd
    have h1 := (userBookingsQuery_perm userId bookings).subset hd
    exact Option.isSome_iff_exists.mp (hts d (List.mem_of_mem_filter h1))
  refine (List.Pairwise.and_mem.mp (userBookingsQuery_sorted userId bookings)).imp ?_
  rintro a b ⟨ha, hb, hab⟩
  obtain ⟨ta, hta⟩ := hmem a ha
  obtain ⟨tb, htb⟩ := hmem b hb
  refine ⟨ta, tb, hta, htb, ?_⟩
  simpa [hta, htb] using hab

theorem watchUserBookings_delivers_witness :
    (watchUserBookings "uid-alice" id bookingsSample).map (fun e => e.get "id")
      = [some (.str "b3"), some (.str "b1")] ∧
    ∃ docs : Collection,
      watchUserBookings "uid-alice" id bookingsSample = docs.map docEntry ∧
      docs.Perm (bookingsSample.filter (fun e => strictEqStr (e.2.get "userId") "uid-alice")) ∧
      docs.Pairwise (fun a b => ∃ ta tb,
        createdAtOf a.2 = some ta ∧ createdAtOf b.2 = some tb ∧ tb ≤ ta) :=
  ⟨rfl, watchUserBookings_delivers "uid-alice" bookingsSample (by
    intro e he
    simp only [bookingsSample, List.mem_cons, List.mem_singleton, List.not_mem_nil,
      or_false] at he
    rcases he with h | h | h <;> subst h <;> rfl)⟩

/-! ## The booking handler -/

theorem chargeStep_charges (env : Env) (page : Page) (slot : Doc) (bId : String) (s' : Store) :
    (chargeStep env page slot bId s').charges = [⟨bId, page.amount, payerEmail env.currentUser⟩] ∧
    (chargeStep env page slot bId s').reserveCall
      = some ⟨slot.get "id", page.amount, .ok bId⟩ ∧
    (chargeStep env page slot bId s').store = s' := by
  simp only [chargeStep]
  cases env.createPaystackCharge ⟨bId, page.amount, payerEmail env.currentUser⟩ with
  | error msg => exact ⟨rfl, rfl, rfl⟩
  | ok r => cases r <;> exact ⟨rfl, rfl, rfl⟩

/-- What the `try` block does, by the result of `createBookingAtomic`: no
call reached the store, the call failed, or it returned an id and the charge
step ran. -/
theorem bookStep_cases (env : Env) (page : Page) (slot : Doc) (sd ed : Int) (s : Store) :
    (∃ v msg, (bookStep env page slot sd ed s).reserveCall = some ⟨v, page.amount, .error msg⟩ ∧
      (bookStep env page slot sd ed s).charges = []) ∨
    (∃ slotId bId s', slot.get "id" = some (.str slotId) ∧
      createBookingAtomic env.currentUser env.autoId env.now
        (bookingArgsOf env page slot slotId sd ed) s = (.ok bId, s') ∧
      bookStep env page slot sd ed s = chargeStep env page slot bId s') := by
  unfold bookStep
  split
  · rename_i slotId hid
    split
    · rename_i msg s' hres
      exact Or.inl ⟨_, msg, rfl, rfl⟩
    · rename_i bId s' hres
      exact Or.inr ⟨slotId, bId, s', hid, hres, rfl⟩
  · exact Or.inl ⟨_, _, rfl, rfl⟩

/-- A run of `handleBook` either stops at a guard, before any call, or runs
the `try` block on the selected slot and the parsed dates. -/
theorem handleBook_cases (env : Env) (page : Page) (s : Store) :
    ((handleBook env page s).reserveCall = none ∧ (handleBook env page s).charges = [] ∧
      (handleBook env page s).store = s) ∨
    (∃ slot sd ed, page.slot = some slot ∧ page.start.text ≠ "" ∧ page.end_.text ≠ "" ∧
      page.start.date = some sd ∧ page.end_.date = some ed ∧
      handleBook env page s = bookStep env page slot sd ed s) := by
  unfold handleBook
  split
  · exact Or.inl ⟨rfl, rfl, rfl⟩
  · rename_i slot hslot
    split
    · exact Or.inl ⟨rfl, rfl, rfl⟩
    · rename_i htext
      split
      · rename_i sd ed hsd hed
        exact Or.inr ⟨slot, sd, ed, hslot, fun h => htext (Or.inl h),
          fun h => htext (Or.inr h), hsd, hed, rfl⟩
      · exact Or.inl ⟨rfl, rfl, rfl⟩

/-- With a slot selected, both inputs filled in and both dates valid,
`handleBook` runs its `try` block. -/
theorem handleBook_of_inputs (env : Env) (page : Page) (s : Store) (slot : Doc) (sd ed : Int)
    (hslot : page.slot = some slot) (hst : page.start.text ≠ "") (het : page.end_.text ≠ "")
    (hsd : page.start.date = some sd) (hed : page.end_.date = some ed) :
    handleBook env page s = bookStep env page slot sd ed s := by
  simp [handleBook, hslot, hst, het, hsd, hed]

/-- In the `try` block, when `createBookingAtomic` returns an id the charge
step follows on the store it committed. -/
theorem bookStep_of_ok (env : Env) (page : Page) (slot : Doc) (slotId : String) (sd ed : Int)
    (s s' : Store) (bId : String) (hid : slot.get "id" = some (.str slotId))
    (hres : createBookingAtomic env.currentUser env.autoId env.now
      (bookingArgsOf env page slot slotId sd ed) s = (.ok bId, s')) :
    bookStep env page slot sd ed s = chargeStep env page slot bId s' := by
  simp only [bookStep, hid, hres]

/-- In the `try` block, when `createBookingAtomic` throws, the error is shown
and nothing else is done. -/
theorem bookStep_of_error (env : Env) (page : Page) (slot : Doc) (slotId : String)
    (sd ed : Int) (s s' : Store) (msg : String) (hid : slot.get "id" = some (.str slotId))
    (hres : createBookingAtomic env.currentUser env.autoId env.now
      (bookingArgsOf env page slot slotId sd ed) s = (.error msg, s')) :
    (bookStep env page slot sd ed s).charges = [] ∧
    (bookStep env page slot sd ed s).store = s' ∧
    (bookStep env page slot sd ed s).error = some (messageOr msg) := by
  simp [bookStep, hid, hres, idle]

/-- C19: in every run of `handleBook`, `createPaystackCharge` is called
exactly when the run reaches `createBookingAtomic` and that call returns a
booking id; it is then called once, after the call has returned with its
store, with that id and with the amount that was passed to
`createBookingAtomic`.  When the reservation fails, or is never attempted, no
charge is requested. -/
theorem charge_follows_reserve (env : Env) (page : Page) (s : Store) :
    ((handleBook env page s).charges ≠ [] ↔
      ∃ slot slotId sd ed bId s', page.slot = some slot ∧ page.start.text ≠ "" ∧
        page.end_.text ≠ "" ∧ page.start.date = some sd ∧ page.end_.date = some ed ∧
        slot.get "id" = some (.str slotId) ∧
        createBookingAtomic env.currentUser env.autoId env.now
          (bookingArgsOf env page slot slotId sd ed) s = (.ok bId, s')) ∧
    (∀ slot slotId sd ed, page.slot = some slot → page.start.text ≠ "" →
      page.end_.text ≠ "" → page.start.date = some sd → page.end_.date = some ed →
      slot.get "id" = some (.str slotId) →
      (∀ bId s', createBookingAtomic env.currentUser env.autoId env.now
          (bookingArgsOf env page slot slotId sd ed) s = (.ok bId, s') →
        (handleBook env page s).charges
          = [⟨bId, (bookingArgsOf env page slot slotId sd ed).amount,
              payerEmail env.currentUser⟩] ∧
        (handleBook env page s).store = s') ∧
      (∀ msg s', createBookingAtomic env.currentUser env.autoId env.now
          (bookingArgsOf env page slot slotId sd ed) s = (.error msg, s') →
        (handleBook env page s).charges = [] ∧ (handleBook env page s).store = s')) := by
  have hsecond : ∀ slot slotId sd ed, page.slot = some slot → page.start.text ≠ "" →
      page.end_.text ≠ "" → page.start.date = some sd → page.end_.date = some ed →
      slot.get "id" = some (.str slotId) →
      (∀ bId s', createBookingAtomic env.currentUser env.autoId env.now
          (bookingArgsOf env page slot slotId sd ed) s = (.ok bId, s') →
        (handleBook env page s).charges
          = [⟨bId, (bookingArgsOf env page slot slotId sd ed).amount,
              payerEmail env.currentUser⟩] ∧
        (handleBook env page s).store = s') ∧
      (∀ msg s', createBookingAtomic env.currentUser env.autoId env.now
          (bookingArgsOf env page slot slotId sd ed) s = (.error msg, s') →
        (handleBook env page s).charges = [] ∧ (handleBook env page s).store = s') := by
    intro slot slotId sd ed hslot hst het hsd hed hid
    rw [handleBook_of_inputs env page s slot sd ed hslot hst het hsd hed]
    constructor
    · intro bId s' hres
      rw [bookStep_of_ok env page slot slotId sd ed s s' bId hid hres]
      obtain ⟨hc, _, hs⟩ := chargeStep_charges env page slot bId s'
      exact ⟨hc, hs⟩
    · intro msg s' hres
      obtain ⟨hc, hs, _⟩ := bookStep_of_error env page slot slotId sd ed s s' msg hid hres
      exact ⟨hc, hs⟩
  refine ⟨⟨fun hne => ?_, ?_⟩, hsecond⟩
  · rcases handleBook_cases env page s with
      ⟨_, h2, _⟩ | ⟨slot, sd, ed, hslot, hst, het, hsd, hed, hb⟩
    · exact absurd h2 hne
    · rw [hb] at hne
      rcases bookStep_cases env page slot sd ed s with
        ⟨v, msg, _, h2⟩ | ⟨slotId, bId, s', hid, hres, _⟩
      · exact absurd h2 hne
      · exact ⟨slot, slotId, sd, ed, bId, s', hslot, hst, het, hsd, hed, hid, hres⟩
  · rintro ⟨slot, slotId, sd, ed, bId, s', hslot, hst, het, hsd, hed, hid, hres⟩
    rw [((hsecond slot slotId sd ed hslot hst het hsd hed hid).1 bId s' hres).1]
    exact List.cons_ne_nil _ _

theorem charge_follows_reserve_witness :
    createBookingAtomic envFailing.currentUser envFailing.autoId envFailing.now
        (bookingArgsOf envFailing pageReady seededPageSlot "S1" 1735722000000 1735727400000)
        store0
      = (.ok "b1", store1Page) ∧
    (handleBook envFailing pageReady store0).charges
      = [⟨"b1", .num 2, "alice@example.com"⟩] ∧
    (handleBook envFailing pageReady store0).store = store1Page :=
  ⟨rfl, ((charge_follows_reserve envFailing pageReady store0).2 seededPageSlot "S1"
    1735722000000 1735727400000 rfl (by decide) (by decide) rfl rfl rfl).1 "b1" store1Page rfl⟩

/-- C20: when, in a run of `handleBook`, `createBookingAtomic` returns a
booking id and `createPaystackCharge` then fails with a message, the charge
was requested exactly once, the page error is that message (the text
"Failed to create booking" when the message is empty), nothing is navigated
to, and the store is the one the reservation committed: the new booking is
there with `paymentStatus = "pending"`, the slot is `reserved` and held by
it, and no release has been made. -/
theorem charge_failure_surfaced (env : Env) (page : Page) (s : Store)
    (c : ReserveCall) (bId msg : String)
    (hcall : (handleBook env page s).reserveCall = some c) (hok : c.result = .ok bId)
    (hfail : env.createPaystackCharge ⟨bId, page.amount, payerEmail env.currentUser⟩
      = .error msg) :
    (handleBook env page s).charges.length = 1 ∧
    (handleBook env page s).error = some (messageOr msg) ∧
    (msg ≠ "" → (handleBook env page s).error = some msg) ∧
    (handleBook env page s).navigatedTo = none ∧
    ∃ args, createBookingAtomic env.currentUser env.autoId env.now args s
        = (.ok bId, (handleBook env page s).store) ∧
      (∃ booking, (handleBook env page s).store.getDoc (bookingDocRef bId) = some booking ∧
        booking.get "paymentStatus" = some (.str "pending")) ∧
      ∃ ref slot', slotDoc args.slotId = .ok ref ∧
        (handleBook env page s).store.getDoc ref = some slot' ∧
        slot'.get "status" = some (.str "reserved") ∧
        slot'.get "currentBookingId" = some (.str bId) := by
  rcases handleBook_cases env page s with ⟨h1, _, _⟩ | ⟨slot, sd, ed, _, _, _, _, _, hb⟩
  · rw [h1] at hcall
    exact Option.noConfusion hcall
  · rw [hb] at hcall ⊢
    rcases bookStep_cases env page slot sd ed s with
      ⟨v, m, h1, _⟩ | ⟨slotId, b, s', _, hres, hstep⟩
    · rw [h1] at hcall
      simp only [Option.some.injEq] at hcall
      subst hcall
      simp at hok
    · obtain ⟨_, hr, _⟩ := chargeStep_charges env page slot b s'
      rw [hstep] at hcall ⊢
      rw [hr] at hcall
      simp only [Option.some.injEq] at hcall
      subst hcall
      simp only [Except.ok.injEq] at hok
      subst hok
      have hstore : chargeStep env page slot b s'
          = { idle s' with reserveCall := some ⟨slot.get "id", page.amount, .ok b⟩,
                           charges := [⟨b, page.amount, payerEmail env.currentUser⟩],
                           bookingId := some b,
                           error := some (messageOr msg) } := by
        simp only [chargeStep, hfail]
      rw [hstore]
      refine ⟨rfl, rfl, fun hne => by simp [messageOr, hne], rfl,
        bookingArgsOf env page slot slotId sd ed, hres, ?_, ?_⟩
      · cases hu : env.currentUser with
        | none => rw [hu] at hres; simp [createBookingAtomic] at hres
        | some user =>
          rw [hu] at hres
          obtain ⟨hbk, _⟩ := reserve_success_marks_slot_aux user env.autoId env.now _ s s' b hres
          exact ⟨_, hbk, rfl⟩
      · cases hu : env.currentUser with
        | none => rw [hu] at hres; simp [createBookingAtomic] at hres
        | some user =>
          rw [hu] at hres
          obtain ⟨_, ref, slot', hdoc, h1, h2, h3, _⟩ :=
            reserve_success_marks_slot_aux user env.autoId env.now _ s s' b hres
          exact ⟨ref, slot', hdoc, h1, h2, h3⟩

theorem charge_failure_surfaced_witness :
    (handleBook envFailing pageReady store0).reserveCall
      = some ⟨some (.str "S1"), .num 2, .ok "b1"⟩ ∧
    (handleBook envFailing pageReady store0).charges.length = 1 ∧
    (handleBook envFailing pageReady store0).error = some (messageOr "Paystack charge failed") ∧
    ("Paystack charge failed" ≠ "" →
      (handleBook envFailing pageReady store0).error = some "Paystack charge failed") ∧
    (handleBook envFailing pageReady store0).navigatedTo = none ∧
    ∃ args, createBookingAtomic envFailing.currentUser envFailing.autoId envFailing.now args store0
        = (.ok "b1", (handleBook envFailing pageReady store0).store) ∧
      (∃ booking, (handleBook envFailing pageReady store0).store.getDoc (bookingDocRef "b1")
          = some booking ∧
        booking.get "paymentStatus" = some (.str "pending")) ∧
      ∃ ref slot', slotDoc args.slotId = .ok ref ∧
        (handleBook envFailing pageReady store0).store.getDoc ref = some slot' ∧
        slot'.get "status" = some (.str "reserved") ∧
        slot'.get "currentBookingId" = some (.str "b1") :=
  ⟨rfl, charge_failure_surfaced envFailing pageReady store0
    ⟨some (.str "S1"), .num 2, .ok "b1"⟩ "b1" "Paystack charge failed" rfl rfl rfl⟩

/-! ## The amount and the window -/

/-- With an empty input the effect returns early and the amount stays what
it was. -/
theorem amountEffect_of_empty (toNumber : Value → Option ℚ) (start end_ : TimeInput)
    (slot : Option Doc) (prev : Option ℚ) (h : start.text = "" ∨ end_.text = "") :
    amountEffect toNumber start end_ slot prev = prev := by
  simp [amountEffect, h]

/-- With both inputs filled in, the amount is 0 unless both dates are valid
and the end is strictly after the start. -/
theorem amountEffect_of_no_window (toNumber : Value → Option ℚ) (start end_ : TimeInput)
    (slot : Option Doc) (prev : Option ℚ)
    (hst : start.text ≠ "") (het : end_.text ≠ "")
    (hno : ¬ ∃ s e, start.date = some s ∧ end_.date = some e ∧ s < e) :
    amountEffect toNumber start end_ slot prev = some 0 := by
  cases hs : start.date with
  | none => simp [amountEffect, hst, het, hs]
  | some s =>
    cases he : end_.date with
    | none => simp [amountEffect, hst, het, hs, he]
    | some e =>
      have hle : e ≤ s := by
        by_contra hlt
        exact hno ⟨s, e, hs, he, not_le.mp hlt⟩
      simp [amountEffect, hst, het, hs, he, hle]

/-- The amount the page shows for the seeded slot from 09:00 to 10:30. -/
theorem amountEffect_seeded :
    amountEffect numberOfNum nineOClock halfPastTen (some seededPageSlot) (some 0) = some 2 := by
  rw [amountEffect_of_no_rate numberOfNum nineOClock halfPastTen seededPageSlot (some 0)
    1735722000000 1735727400000 (by decide) (by decide) rfl rfl (by decide) rfl]
  rw [ceil_ninety_minutes]
  norm_num

/-- With an empty input `handleBook` stops at its guard and calls nothing. -/
theorem handleBook_of_empty_input (env : Env) (page : Page) (s : Store)
    (h : page.start.text = "" ∨ page.end_.text = "") :
    (handleBook env page s).reserveCall = none := by
  unfold handleBook
  split
  · rfl
  · simp [h, idle]

/-- Whenever `handleBook` reaches `createBookingAtomic` while the button is
enabled for the amount the effect leaves for the inputs of the page, both
dates are valid and the end is strictly after the start. -/
theorem reserve_needs_window (toNumber : Value → Option ℚ) (env : Env) (page : Page)
    (s : Store) (prev : Option ℚ)
    (hcall : (handleBook env page s).reserveCall ≠ none)
    (hbtn : buttonEnabled (amountEffect toNumber page.start page.end_ page.slot prev) = true) :
    ∃ sd ed, page.start.date = some sd ∧ page.end_.date = some ed ∧ sd < ed := by
  by_contra hno
  have hst : page.start.text ≠ "" := fun h =>
    hcall (handleBook_of_empty_input env page s (Or.inl h))
  have het : page.end_.text ≠ "" := fun h =>
    hcall (handleBook_of_empty_input env page s (Or.inr h))
  rw [amountEffect_of_no_window toNumber page.start page.end_ page.slot prev hst het hno] at hbtn
  simp [buttonEnabled] at hbtn

/-- C21, as the code has it: for every start, end and slot with both inputs
filled in, whenever the end is not strictly after the start, or either is not
a valid date, the effect sets the amount to 0; so a positive amount computed
from filled-in inputs implies `end > start`. -/
theorem amount_zero_unless_window (toNumber : Value → Option ℚ) (start end_ : TimeInput)
    (slot : Option Doc) (prev : Option ℚ)
    (hst : start.text ≠ "") (het : end_.text ≠ "") :
    ((¬ ∃ s e, start.date = some s ∧ end_.date = some e ∧ s < e) →
      amountEffect toNumber start end_ slot prev = some 0) ∧
    (∀ q, amountEffect toNumber start end_ slot prev = some q → 0 < q →
      ∃ s e, start.date = some s ∧ end_.date = some e ∧ s < e) := by
  refine ⟨amountEffect_of_no_window toNumber start end_ slot prev hst het, ?_⟩
  intro q hq hpos
  by_contra hno
  rw [amountEffect_of_no_window toNumber start end_ slot prev hst het hno] at hq
  simp only [Option.some.injEq] at hq
  rw [← hq] at hpos
  exact lt_irrefl _ hpos

theorem amount_zero_unless_window_witness :
    ((¬ ∃ s e, nineOClock.date = some s ∧ eightOClock.date = some e ∧ s < e) →
      amountEffect numberOfNum nineOClock eightOClock (some seededPageSlot) (some 2) = some 0) ∧
    (∀ q, amountEffect numberOfNum nineOClock eightOClock (some seededPageSlot) (some 2) = some q →
      0 < q → ∃ s e, nineOClock.date = some s ∧ eightOClock.date = some e ∧ s < e) :=
  amount_zero_unless_window numberOfNum nineOClock eightOClock (some seededPageSlot) (some 2)
    (by decide) (by decide)

/-- C21 fails as stated: after 09:00 to 10:30 has been entered for the seeded
slot the amount is 2; when the end input is then cleared, the end is not a
valid date, yet the effect returns early and the amount is still 2, not 0, and
the button stays enabled. -/
theorem stale_amount_after_clearing :
    emptyInput.date = none ∧
    amountEffect numberOfNum nineOClock halfPastTen (some seededPageSlot) (some 0) = some 2 ∧
    amountEffect numberOfNum nineOClock emptyInput (some seededPageSlot) (some 2) = some 2 ∧
    amountEffect numberOfNum nineOClock emptyInput (some seededPageSlot) (some 2) ≠ some 0 ∧
    buttonEnabled (amountEffect numberOfNum nineOClock emptyInput (some seededPageSlot) (some 2))
      = true := by
  have h : amountEffect numberOfNum nineOClock emptyInput (some seededPageSlot) (some 2)
      = some 2 := amountEffect_of_empty _ _ _ _ _ (Or.inr rfl)
  refine ⟨rfl, amountEffect_seeded, h, ?_, ?_⟩
  · rw [h]; norm_num
  · rw [h]; simp [buttonEnabled]

/-! ## What the engine leaves alone -/

theorem map_fst_assocSet {β : Type} (k : String) (v w : β) (l : List (String × β))
    (h : assocGet k l = some w) : (assocSet k v l).map Prod.fst = l.map Prod.fst := by
  induction l with
  | nil => simp [assocGet] at h
  | cons e rest ih =>
    obtain ⟨k1, v1⟩ := e
    by_cases hk : k1 = k
    · simp [assocSet, hk]
    · simp [assocGet, hk] at h
      simp [assocSet, hk, ih h]

/-- The slots after one call: as before, or with three fields merged into the
slot document that the call names. -/
theorem parking_slots_run (op : Op) (s : Store) :
    (op.run s).parking_slots = s.parking_slots ∨
    ∃ id slot fields, slotDoc op.slotId = .ok (slotRef id) ∧
      assocGet id s.parking_slots = some slot ∧
      fields.map Prod.fst = ["status", "currentBookingId", "reservedUntil"] ∧
      (op.run s).parking_slots = assocSet id (slot.update fields) s.parking_slots := by
  cases op with
  | release slotId =>
    simp only [Op.run, Op.slotId]
    rcases releaseSlot_cases slotId s with ⟨e, he⟩ | ⟨id, slot, hdoc, hg, hres⟩
    · rw [he]; exact Or.inl rfl
    · rw [hres]; exact Or.inr ⟨id, slot, releasedFields, hdoc, hg, rfl, rfl⟩
  | reserve currentUser autoId now a =>
    simp only [Op.run, Op.slotId]
    rcases createBookingAtomic_cases currentUser autoId now a s with
      ⟨e, he⟩ | ⟨user, id, slot, _, hdoc, hg, _, hres⟩
    · rw [he]; exact Or.inl rfl
    · rw [hres]; exact Or.inr ⟨id, slot, reservedFields autoId a, hdoc, hg, rfl, rfl⟩

/-- C22: a reserve or release call touches at most three fields of one slot.
For every store and every call, no slot document is created or deleted (the
identifiers of `parking_slots` are the same, in the same order), every slot
document other than the one that `slotId` refers to is unchanged, and on that
one every field other than `status`, `currentBookingId` and `reservedUntil`
keeps its value. -/
theorem slots_frame (op : Op) (s : Store) :
    (op.run s).parking_slots.map Prod.fst = s.parking_slots.map Prod.fst ∧
    (∀ id, slotDoc op.slotId ≠ .ok (slotRef id) →
      (op.run s).getDoc (slotRef id) = s.getDoc (slotRef id)) ∧
    (∀ ref slot, slotDoc op.slotId = .ok ref → s.getDoc ref = some slot →
      ∃ slot', (op.run s).getDoc ref = some slot' ∧
        ∀ k, k ≠ "status" → k ≠ "currentBookingId" → k ≠ "reservedUntil" →
          slot'.get k = slot.get k) := by
  rcases parking_slots_run op s with h | ⟨id0, slot, fields, hdoc, hg, hkeys, h⟩
  · refine ⟨by rw [h], fun id _ => ?_, fun ref slot hr hslot => ?_⟩
    · simp only [Store.getDoc, slotRef, Store.coll, h]
    · obtain ⟨id, hid, hget⟩ := slotRef_of_getDoc _ _ _ _ hr hslot
      subst hid
      refine ⟨slot, ?_, fun _ _ _ _ => rfl⟩
      simp only [Store.getDoc, slotRef, Store.coll, h]
      exact hget
  · refine ⟨?_, fun id hne => ?_, fun ref slot0 hr hslot => ?_⟩
    · rw [h]; exact map_fst_assocSet _ _ _ _ hg
    · have hne' : id ≠ id0 := by
        intro hc
        subst hc
        exact hne hdoc
      simp only [Store.getDoc, slotRef, Store.coll, h]
      exact assocGet_assocSet_ne _ _ _ _ hne'
    · have href : ref = slotRef id0 := by
        rw [hdoc] at hr
        exact (Except.ok.inj hr).symm
      subst href
      have hs : slot0 = slot := by
        have hslot' : assocGet id0 s.parking_slots = some slot0 := hslot
        rw [hg] at hslot'
        exact (Option.some.inj hslot').symm
      subst hs
      refine ⟨slot0.update fields, ?_, fun k h1 h2 h3 => ?_⟩
      · simp only [Store.getDoc, slotRef, Store.coll, h]
        exact assocGet_assocSet_self _ _ _
      · have hnd : (fields.map Prod.fst).Nodup := by rw [hkeys]; decide
        have hnone : Doc.get fields k = none := by
          apply assocGet_eq_none_of_not_mem_keys
          rw [hkeys]
          simp [h1, h2, h3]
        rw [get_update slot0 fields k hnd, hnone]

/-- The frame at a slot id written with a trailing slash: releasing `S1/` in
`store1` is a release of the document `S1`, whose other fields are kept. -/
theorem slots_frame_at_trailing_slash :
    slotDoc "S1/" = .ok (slotRef "S1") ∧
    ((releaseSlot "S1/" store1).2.getDoc (slotRef "S1")).bind (fun d => d.get "status")
      = some (.str "available") ∧
    ((releaseSlot "S1/" store1).2.getDoc (slotRef "S1")).bind (fun d => d.get "name")
      = (store1.getDoc (slotRef "S1")).bind (fun d => d.get "name") ∧
    (releaseSlot "S1/" store1).2.bookings = store1.bookings :=
  ⟨rfl, rfl, rfl, rfl⟩

/-- The conversion of stored prices: the number 10 and the string `10` both
convert to 10, a text that is no number to `NaN`. -/
theorem numberOfNum_examples :
    numberOfNum (.num 10) = some 10 ∧ numberOfNum (.str "10") = some 10 ∧
    numberOfNum (.str "12.5") = some (25 / 2) ∧ numberOfNum (.str "abc") = none := by
  refine ⟨rfl, ?_, ?_, ?_⟩
  · have h : parseDigits ['1', '0'] 0 = some 10 := by decide
    have hs : splitAtDot ['1', '0'] = (['1', '0'], none) := by decide
    simp [numberOfNum, stringToNumber, hs, h]
  · have h1 : parseDigits ['1', '2'] 0 = some 12 := by decide
    have h2 : parseDigits ['5'] 0 = some 5 := by decide
    have hs : splitAtDot ['1', '2', '.', '5'] = (['1', '2'], some ['5']) := by decide
    simp [numberOfNum, stringToNumber, hs, h1, h2]
    norm_num
  · have h : parseDigits ['a', 'b', 'c'] 0 = none := by decide
    have hs : splitAtDot ['a', 'b', 'c'] = (['a', 'b', 'c'], none) := by decide
    simp [numberOfNum, stringToNumber, hs, h]

end ParkPass
